import Mathlib

/-!
Verification of the graph-format-converter core (GraphFormatConverter class):
a shallow embedding of the canonical graph model, the JSON/GEXF/GraphML
importers and exporters, and the attribute-type guesser, with theorems
settling the specification claims.

Modelling conventions:
* JavaScript runtime values are the inductive `JVal`; `JVal.undefined` plays the
  role of `undefined` (both an absent property read and a stored `undefined`).
* Numeric values are modelled as integers (the conversion logic never does
  arithmetic on them, it only moves them around and compares them).
* The XML parse/build collaborator (fast-xml-parser) is modelled at its
  interface: importers take the parsed tree (`Option JVal`, `none` = the
  parser threw) and exporters produce the root tree handed to the builder.
* The color collaborator (tinycolor2) is modelled at its interface: a parsed
  color is an rgb triple, `rgbString` is its canonical rgb(...) renderer and
  `tinycolor` its (total) parser; invalid inputs normalize to black.
-/

/-- An rgb color triple (the interface of a tinycolor2 instance). -/
structure Color where
  r : Nat
  g : Nat
  b : Nat
deriving DecidableEq, Repr

/-- JavaScript runtime values as the converter sees them. -/
inductive JVal where
  /-- the `undefined` value / an absent property -/
  | undefined
  | str (s : String)
  | num (n : Int)
  /-- the NaN number -/
  | nan
  | bool (b : Bool)
  /-- a tinycolor2 instance -/
  | color (c : Color)
  /-- a plain object: own enumerable properties in insertion order -/
  | obj (fields : List (String × JVal))
  /-- an array -/
  | arr (elems : List JVal)

/-- Association list of object properties in insertion order. -/
abbrev Fields := List (String × JVal)

/-- Property read on a field list (`undefined` when absent). -/
def getF (fs : Fields) (k : String) : JVal :=
  match fs with
  | [] => .undefined
  | (a, v) :: rest => if a = k then v else getF rest k

/-- Property write: overwrite in place if present, else append (JS object
assignment semantics with insertion order). -/
def setF (fs : Fields) (k : String) (v : JVal) : Fields :=
  match fs with
  | [] => [(k, v)]
  | (a, w) :: rest => if a = k then (a, v) :: rest else (a, w) :: setF rest k v

/-- The `delete` operator on a field list. -/
def removeF (fs : Fields) (k : String) : Fields :=
  match fs with
  | [] => []
  | (a, w) :: rest => if a = k then rest else (a, w) :: removeF rest k

/-- Property read on a `JVal` (`undefined` for non-objects, like JS reads on
primitives; reads on `undefined` itself must go through `jAccessE`). -/
def jGet (x : JVal) (k : String) : JVal :=
  match x with
  | .obj fs => getF fs k
  | _ => .undefined

/-- Strict equality of a JS value against a string literal
(`v === "lit"`: true only for an equal string). -/
def JVal.isStr (v : JVal) (s : String) : Bool :=
  match v with
  | .str t => t == s
  | _ => false

/-- The `x !== undefined` test. -/
def JVal.defined (v : JVal) : Bool :=
  match v with
  | .undefined => false
  | _ => true

/-- JS truthiness, as used by `if (elementData.attributes.size)` style tests. -/
def JVal.truthy (v : JVal) : Bool :=
  match v with
  | .undefined => false
  | .str s => s ≠ ""
  | .num n => n ≠ 0
  | .nan => false
  | .bool b => b
  | .color _ => true
  | .obj _ => true
  | .arr _ => true

/-- The JS `typeof` operator. -/
def JVal.typeOf (v : JVal) : String :=
  match v with
  | .undefined => "undefined"
  | .str _ => "string"
  | .num _ => "number"
  | .nan => "number"
  | .bool _ => "boolean"
  | .color _ => "object"
  | .obj _ => "object"
  | .arr _ => "object"

/-- `Array.isArray`. -/
def JVal.isArr (v : JVal) : Bool :=
  match v with
  | .arr _ => true
  | _ => false

/-- The `Array.isArray(x) ? x : [x]` normalization used throughout the
importers (note it wraps even `undefined`). -/
def asList (v : JVal) : List JVal :=
  match v with
  | .arr xs => xs
  | x => [x]

/-! ### Decimal digits and the color collaborator (tinycolor2 interface) -/

/-- The character of a decimal digit. -/
def digitChar : Nat → Char
  | 0 => '0' | 1 => '1' | 2 => '2' | 3 => '3' | 4 => '4'
  | 5 => '5' | 6 => '6' | 7 => '7' | 8 => '8' | _ => '9'

/-- The value of a decimal digit character. -/
def digitVal (c : Char) : Option Nat :=
  if 48 ≤ c.toNat ∧ c.toNat ≤ 57 then some (c.toNat - 48) else none

/-- Decimal digit characters of a natural number, most significant first. -/
def natDigits (n : Nat) : List Char :=
  if _h : n < 10 then [digitChar n]
  else natDigits (n / 10) ++ [digitChar (n % 10)]
termination_by n
decreasing_by exact Nat.div_lt_self (by omega) (by omega)

/-- Decimal rendering of a natural number. -/
def natToStr (n : Nat) : String := ⟨natDigits n⟩

/-- Decimal rendering of an integer. -/
def intToStr (n : Int) : String :=
  match n with
  | .ofNat m => natToStr m
  | .negSucc m => "-" ++ natToStr (m + 1)

/-- Read a run of decimal digits into an accumulator; `none` on a non-digit. -/
def readNatAux : List Char → Nat → Option Nat
  | [], acc => some acc
  | c :: cs, acc =>
    match digitVal c with
    | some d => readNatAux cs (acc * 10 + d)
    | none => none

/-- Parse a string made of decimal digits only. -/
def readNat? (s : String) : Option Nat :=
  match s.data with
  | [] => none
  | cs => readNatAux cs 0

/-- Parse an optionally `-`-signed run of decimal digits. -/
def readInt? (s : String) : Option Int :=
  match s.data with
  | [] => none
  | '-' :: [] => none
  | '-' :: cs => (readNatAux cs 0).map (fun n => -(n : Int))
  | cs => (readNatAux cs 0).map (fun n => (n : Int))

/-- The canonical `rgb(r, g, b)` string of a color, as a character list. -/
def rgbChars (c : Color) : List Char :=
  'r' :: 'g' :: 'b' :: '(' :: natDigits c.r
    ++ ',' :: ' ' :: natDigits c.g
    ++ ',' :: ' ' :: natDigits c.b
    ++ [')']

/-- The canonical `rgb(r, g, b)` string of a color
(`tinycolor2(..).toRgbString()` for an opaque color). -/
def rgbString (c : Color) : String := ⟨rgbChars c⟩

/-- Read a maximal nonempty digit run, returning its value and the rest. -/
def readDigits : List Char → Nat → Bool → Option (Nat × List Char)
  | [], acc, seen => if seen then some (acc, []) else none
  | c :: cs, acc, seen =>
    match digitVal c with
    | some d => readDigits cs (acc * 10 + d) true
    | none => if seen then some (acc, c :: cs) else none

/-- Parse the canonical `rgb(r, g, b)` character sequence. -/
def parseRgbChars (cs : List Char) : Option Color :=
  match cs with
  | 'r' :: 'g' :: 'b' :: '(' :: rest =>
    match readDigits rest 0 false with
    | some (r, ',' :: ' ' :: rest1) =>
      match readDigits rest1 0 false with
      | some (g, ',' :: ' ' :: rest2) =>
        match readDigits rest2 0 false with
        | some (b, [')']) => some ⟨r, g, b⟩
        | _ => none
      | _ => none
    | _ => none
  | _ => none

/-- Parse an `rgb(r, g, b)` string into a color. -/
def parseRgb (s : String) : Option Color := parseRgbChars s.data

/-- The tinycolor2 collaborator: build a color from a color-like input.
An already-built color passes through; a canonical rgb string parses back;
anything else normalizes to black (tinycolor's invalid-input rgb values). -/
def tinycolor (v : JVal) : Color :=
  match v with
  | .color c => c
  | .str s => (parseRgb s).getD ⟨0, 0, 0⟩
  | _ => ⟨0, 0, 0⟩

/-- JS string coercion, as in a template literal.  (Array coercion is
simplified to the empty string: the converter never stringifies arrays.) -/
def jsToString (v : JVal) : String :=
  match v with
  | .undefined => "undefined"
  | .str s => s
  | .num n => intToStr n
  | .nan => "NaN"
  | .bool b => if b then "true" else "false"
  | .color c => rgbString c
  | .obj _ => "[object Object]"
  | .arr _ => ""

/-- Is the character JS whitespace (for `Number()`'s blank-string rule)? -/
def isWsChar (c : Char) : Bool := c = ' ' || c = '\t' || c = '\n' || c = '\r'

/-- The JS `Number()` conversion.  (Strings are parsed as integers: the
model has no floating-point values; object/array coercion yields NaN.) -/
def jsNumber (v : JVal) : JVal :=
  match v with
  | .undefined => .nan
  | .num n => .num n
  | .nan => .nan
  | .bool b => .num (if b then 1 else 0)
  | .str s =>
    if s.data.all isWsChar then .num 0
    else match readInt? s with
      | some n => .num n
      | none => .nan
  | .color _ => .nan
  | .obj _ => .nan
  | .arr _ => .nan

/-- Escape `&` as `&amp;` (the exporters' attribute-text escaping). -/
def escAmp (s : String) : String := s.replace "&" "&amp;"

/-! ### The canonical graph model -/

/-- A typed attribute descriptor (`IAttribute`).  `id` and `title` are JS
values: XML import copies whatever the parser produced (possibly
`undefined`). -/
structure Attribute where
  id : JVal
  title : JVal
  type : String

/-- The graph-level attributes (`IGraphAttribute`). -/
structure GraphAttrs where
  id : JVal
  edgeType : JVal
  mode : JVal

/-- The default graph attributes used by every importer. -/
def defaultGraphAttrs : GraphAttrs :=
  ⟨.str "graph", .str "undirected", .str "static"⟩

/-- A canonical node or edge: its top-level fields plus the free-form
`attributes` map.  The `attributes` property is kept apart from the other
fields because every loop in the source special-cases it. -/
structure Element where
  fields : Fields
  attributes : Fields

/-- The state of a `GraphFormatConverter` instance. -/
structure GraphState where
  nodes : List Element
  edges : List Element
  nodeAttributes : List Attribute
  edgeAttributes : List Attribute
  graphAttributes : GraphAttrs

/-! ### Attribute-type guessing (guessJSONAttribute / getAttributesFromGuesser) -/

/-- One key's entry in the guesser object (`attributesObject[key]`):
per-type observation counters, in first-observed order. -/
structure GuessEntry where
  id : String
  title : String
  counts : List (String × Nat)

/-- The guesser object: one entry per observed key, in first-observed
order. -/
abbrev Guess := List (String × GuessEntry)

/-- Bump the counter of one type name, creating it (at the end) on first
sight — `attributesObject[key].type[typeof value] += 1` together with its
zero-initialisation. -/
def incrCount : List (String × Nat) → String → List (String × Nat)
  | [], t => [(t, 1)]
  | (a, n) :: rest, t =>
    if a = t then (a, n + 1) :: rest else (a, n) :: incrCount rest t

/-- `GraphFormatConverter.guessJSONAttribute`: record one observation of
`value` under `key`, creating the key's entry on first sight. -/
def guessJSONAttribute (g : Guess) (k : String) (v : JVal) : Guess :=
  match g with
  | [] => [(k, ⟨k, k, [(v.typeOf, 1)]⟩)]
  | (a, e) :: rest =>
    if a = k then (a, { e with counts := incrCount e.counts v.typeOf }) :: rest
    else (a, e) :: guessJSONAttribute rest k v

/-- The `reduce` inside `getAttributesFromGuesser`: starting from an
undefined accumulator, an entry replaces the accumulator only when its
count is strictly larger, so the first entry with the largest count wins. -/
def pickBest : Option (String × Nat) → List (String × Nat) → Option (String × Nat)
  | acc, [] => acc
  | none, p :: rest => pickBest (some p) rest
  | some a, p :: rest => pickBest (some (if p.2 > a.2 then p else a)) rest

/-- The winning type of a counter list.  (An entry always holds at least
one counter, so the empty case is unreachable; the JS code would throw on
it.) -/
def pickType (counts : List (String × Nat)) : String :=
  match pickBest none counts with
  | some p => p.1
  | none => ""

/-- `GraphFormatConverter.getAttributesFromGuesser`. -/
def getAttributesFromGuesser (g : Guess) : List Attribute :=
  g.map (fun p => Attribute.mk (.str p.2.id) (.str p.2.title) (pickType p.2.counts))

/-! ### Format type maps -/

/-- `GraphFormatConverter.gexfTypeToJSON`. -/
def gexfTypeToJSON (t : JVal) : String :=
  if t.isStr "integer" || t.isStr "long" || t.isStr "double" || t.isStr "float" then "number"
  else if t.isStr "boolean" then "boolean"
  else "string"

/-- `GraphFormatConverter.jsonTypeToGEXF`. -/
def jsonTypeToGEXF (t : String) : String :=
  match t with
  | "number" => "double"
  | "boolean" => "boolean"
  | _ => "string"

/-- `GraphFormatConverter.graphmlTypeToJSON`. -/
def graphmlTypeToJSON (t : JVal) : String :=
  if t.isStr "int" || t.isStr "long" || t.isStr "double" || t.isStr "float" then "number"
  else if t.isStr "boolean" then "boolean"
  else "string"

/-- `GraphFormatConverter.jsonTypeToGRAPHML`. -/
def jsonTypeToGRAPHML (t : String) : String :=
  match t with
  | "number" => "double"
  | "boolean" => "boolean"
  | _ => "string"

/-! ### fromJson -/

/-- A raw JSON input element: arbitrary fields plus an optional
`attributes` object. -/
structure JsonElem where
  fields : Fields
  attributes : Option Fields

/-- Graph-level attributes as they may arrive in a JSON document (each of
the three reserved keys independently present or missing). -/
structure JsonAttrsIn where
  id : Option JVal
  edgeType : Option JVal
  mode : Option JVal

/-- A raw JSON graph document (`{nodes, edges, attributes}`). -/
structure JsonIn where
  nodes : List JsonElem
  edges : List JsonElem
  attributes : Option JsonAttrsIn

/-- The spread `{...graphAttributes, ...graphData.attributes}`. -/
def mergeGraphAttrs (base : GraphAttrs) (a : Option JsonAttrsIn) : GraphAttrs :=
  match a with
  | none => base
  | some a =>
    ⟨a.id.getD base.id, a.edgeType.getD base.edgeType, a.mode.getD base.mode⟩

/-- The `for (const elementKey in element)` loop of
`reorganizeAttributesOfElements`: feed non-reserved keys to the guesser,
move every key outside the keep-list into `attributes` (dropping undefined
values), and keep the rest on the element.  Returns the updated guesser,
the updated `attributes` map and the kept fields (in order). -/
def reorganizeLoop : Guess → Fields → Fields → Guess × Fields × Fields
  | g, attrs, [] => (g, attrs, [])
  | g, attrs, (k, v) :: rest =>
    let g1 :=
      if k = "attributes" ∨ k = "color" ∨ k = "id" ∨ k = "source" ∨ k = "target" then g
      else guessJSONAttribute g k v
    if k = "attributes" ∨ k = "color" ∨ k = "id" ∨ k = "size" ∨ k = "weight" ∨
        k = "target" ∨ k = "source" ∨ k = "label" ∨ k = "edgelabel" ∨ k = "shape" ∨
        k = "x" ∨ k = "y" ∨ k = "z" then
      let (g2, attrs2, kept) := reorganizeLoop g1 attrs rest
      (g2, attrs2, (k, v) :: kept)
    else
      let attrs1 := if v.defined then setF attrs k v else attrs
      reorganizeLoop g1 attrs1 rest

/-- One element of `reorganizeAttributesOfElements`: default the
`attributes` object, feed its entries to the guesser, keep a set color as a
tinycolor2 color, run the rearranging loop, and rename an edge's `size` to
`weight`. -/
def reorganizeElement (g : Guess) (isNode : Bool) (e : JsonElem) : Guess × Element :=
  let ga :=
    match e.attributes with
    | none => (g, ([] : Fields))
    | some attrs =>
      (attrs.foldl (fun g (p : String × JVal) => guessJSONAttribute g p.1 p.2) g, attrs)
  let fields0 :=
    if (getF e.fields "color").defined then
      setF e.fields "color" (.color (tinycolor (getF e.fields "color")))
    else e.fields
  let r := reorganizeLoop ga.1 ga.2 fields0
  let kept :=
    if !isNode && (getF r.2.2 "size").defined then
      removeF (setF r.2.2 "weight" (getF r.2.2 "size")) "size"
    else r.2.2
  (r.1, ⟨kept, r.2.1⟩)

/-- Map with a state accumulator (element order preserved). -/
def mapAccuml (f : α → β → α × γ) : α → List β → α × List γ
  | a, [] => (a, [])
  | a, b :: bs =>
    let r := f a b
    let r2 := mapAccuml f r.1 bs
    (r2.1, r.2 :: r2.2)

/-- `GraphFormatConverter.fromJson`. -/
def fromJson (input : JsonIn) : GraphState :=
  let rn := mapAccuml (fun g e => reorganizeElement g true e) [] input.nodes
  let re := mapAccuml (fun g e => reorganizeElement g false e) [] input.edges
  { nodes := rn.2
    edges := re.2
    nodeAttributes := getAttributesFromGuesser rn.1
    edgeAttributes := getAttributesFromGuesser re.1
    graphAttributes := mergeGraphAttrs defaultGraphAttrs input.attributes }

/-! ### toJson / toGraphology -/

/-- The per-element color normalization every exporter starts with: a
defined `color` field is re-rendered as its canonical rgb string (this
mutates the stored element). -/
def normColorEl (e : Element) : Element :=
  if (getF e.fields "color").defined then
    { e with fields := setF e.fields "color" (.str (rgbString (tinycolor (getF e.fields "color")))) }
  else e

/-- The JSON document returned by `toJson`. -/
structure JsonDoc where
  attributes : GraphAttrs
  nodes : List Element
  edges : List Element

/-- `GraphFormatConverter.toJson`: the returned document, paired with the
instance state after the call (the color mutation is visible in the stored
elements). -/
def toJson (g : GraphState) : JsonDoc × GraphState :=
  let nodes := g.nodes.map normColorEl
  let edges := g.edges.map normColorEl
  (⟨g.graphAttributes, nodes, edges⟩, { g with nodes := nodes, edges := edges })

/-- Read a canonical element back as raw JSON input (its `toJson` image on
the wire). -/
def elemAsJsonIn (e : Element) : JsonElem := ⟨e.fields, some e.attributes⟩

/-- Read a `toJson` document back as `fromJson` input. -/
def docAsJsonIn (d : JsonDoc) : JsonIn :=
  ⟨d.nodes.map elemAsJsonIn, d.edges.map elemAsJsonIn,
    some ⟨some d.attributes.id, some d.attributes.edgeType, some d.attributes.mode⟩⟩

/-- The Graphology document returned by `toGraphology` (graph attributes
are spread after a `name` entry defaulted from the id). -/
structure GraphologyDoc where
  attributes : Fields
  nodes : List Element
  edges : List Element

/-- `GraphFormatConverter.toGraphology`: the returned document paired with
the instance state after the call.  Beyond color normalization it assigns
`key` (from `id`) to nodes and edges and `undirected` to edges — on the
stored elements. -/
def toGraphology (g : GraphState) : GraphologyDoc × GraphState :=
  let ga := g.graphAttributes
  let nodes := g.nodes.map (fun n =>
    let n := normColorEl n
    if (getF n.fields "key").defined then n
    else { n with fields := setF n.fields "key" (getF n.fields "id") })
  let edges := g.edges.map (fun e =>
    let e := normColorEl e
    let e :=
      if !(getF e.fields "key").defined && (getF e.fields "id").defined then
        { e with fields := setF e.fields "key" (getF e.fields "id") }
      else e
    { e with fields := setF e.fields "undirected" (.bool (ga.edgeType.isStr "undirected")) })
  (⟨[("name", ga.id), ("id", ga.id), ("edgeType", ga.edgeType), ("mode", ga.mode)], nodes, edges⟩,
    { g with nodes := nodes, edges := edges })

/-! ### The XML parse-tree interface and the two error kinds -/

/-- The parser's attribute-name marker (`parserOptions.attributeNamePrefix`). -/
def attrMark : String := "@_@_@_"

/-- Does the attribute-name marker occur in a key (`key.includes(prefix)`),
checked on the character list. -/
def isMarkAt (cs : List Char) : Bool :=
  match cs with
  | '@' :: '_' :: '@' :: '_' :: '@' :: '_' :: _ => true
  | _ => false

def hasMarkChars (cs : List Char) : Bool :=
  match cs with
  | [] => false
  | _ :: rest => isMarkAt cs || hasMarkChars rest

def hasMark (k : String) : Bool := hasMarkChars k.data

/-- Remove the first occurrence of the marker (`key.replace(prefix, '')`). -/
def stripMarkChars (cs : List Char) : List Char :=
  match cs with
  | [] => []
  | c :: rest => if isMarkAt cs then (c :: rest).drop 6 else c :: stripMarkChars rest

def stripMark (k : String) : String := ⟨stripMarkChars k.data⟩

/-- Exceptions thrown inside an importer's try-block (the catch-all turns
every one of them into the same malformed-file error, so they carry no
data). -/
abbrev Interp := Except Unit

/-- Property access whose receiver may be `undefined`, which throws
(`TypeError: cannot read properties of undefined`). -/
def jAccessE (x : JVal) (k : String) : Interp JVal :=
  match x with
  | .undefined => .error ()
  | _ => .ok (jGet x k)

/-- The two errors `fromGexf`/`fromGraphml` can raise: the XML-parse
wrapper error, and the generic malformed-file error. -/
inductive CErr where
  | parseErr
  | malformed
deriving DecidableEq, Repr

/-! ### fromGexf -/

/-- The filter-plus-map over a GEXF `attributes.attribute` list inside
`getAttributesDefinitionAsObject`: entries whose `id` is literally `id`,
`source` or `target` are dropped, the rest become descriptors. -/
def gexfAttrList : List JVal → Interp (List Attribute)
  | [] => .ok []
  | a :: rest => do
    let aid ← jAccessE a (attrMark ++ "id")
    let kept ← gexfAttrList rest
    if aid.isStr "id" || aid.isStr "source" || aid.isStr "target" then pure kept
    else
      pure (⟨aid, jGet a (attrMark ++ "title"), gexfTypeToJSON (jGet a (attrMark ++ "type"))⟩ :: kept)

/-- `GraphFormatConverter.getAttributesDefinitionAsObject`. -/
def getAttributesDefinitionAsObject (attrs : JVal) : Interp (List Attribute) :=
  if attrs.defined then gexfAttrList (asList (jGet attrs "attribute"))
  else .ok []

/-- `attributesArray.find(a => a[prefix + "class"] === cls)` (JS `find`
returns `undefined` when nothing matches). -/
def findClass (cls : String) : List JVal → Interp JVal
  | [] => .ok .undefined
  | a :: rest => do
    let c ← jAccessE a (attrMark ++ "class")
    if c.isStr cls then pure a else findClass cls rest

/-- The `attvalues.attvalue` loop of `getGexfElementAttributes`:
`attributes[attvalue["for"]] = attvalue["value"]` for each entry. -/
def gexfAttvalues (attrs : Fields) : List JVal → Interp Fields
  | [] => .ok attrs
  | a :: rest => do
    let forV ← jAccessE a (attrMark ++ "for")
    let valV ← jAccessE a (attrMark ++ "value")
    gexfAttvalues (setF attrs (jsToString forV) valV) rest

/-- The `Object.entries(element).forEach` body of
`getGexfElementAttributes`.  Note that the `thickness` and `shape` cases
assign to `elementData.size`, as the source does. -/
def gexfElemLoop (e : Element) : Fields → Interp Element
  | [] => .ok e
  | (k, v) :: rest => do
    let e1 ←
      if k = "attvalues" then do
        let av ← jAccessE v "attvalue"
        let attrs ← gexfAttvalues e.attributes (asList av)
        pure { e with attributes := attrs }
      else if hasMark k then
        pure { e with fields := setF e.fields (stripMark k) v }
      else
        match k with
        | "color" => do
          let r ← jAccessE v (attrMark ++ "r")
          let gg ← jAccessE v (attrMark ++ "g")
          let b ← jAccessE v (attrMark ++ "b")
          let c := tinycolor (.str ("rgb(" ++ jsToString r ++ ", " ++ jsToString gg ++ ", " ++ jsToString b ++ ")"))
          pure { e with fields := setF e.fields "color" (.color c) }
        | "position" => do
          let x ← jAccessE v (attrMark ++ "x")
          let y ← jAccessE v (attrMark ++ "y")
          let z ← jAccessE v (attrMark ++ "z")
          let fs := setF (setF e.fields "x" (jsNumber x)) "y" (jsNumber y)
          pure { e with fields := if z.defined then setF fs "z" (jsNumber z) else fs }
        | "size" => do
          let w ← jAccessE v (attrMark ++ "value")
          pure { e with fields := setF e.fields "size" (jsNumber w) }
        | "thickness" => do
          let w ← jAccessE v (attrMark ++ "value")
          pure { e with fields := setF e.fields "size" (jsNumber w) }
        | "shape" => do
          let w ← jAccessE v (attrMark ++ "value")
          pure { e with fields := setF e.fields "size" (jsNumber w) }
        | _ => pure { e with fields := setF e.fields k v }
    gexfElemLoop e1 rest

/-- `GraphFormatConverter.getGexfElementAttributes`. -/
def getGexfElementAttributes (element : JVal) : Interp Element :=
  match element with
  | .undefined => .error ()
  | .obj fs => gexfElemLoop ⟨[], []⟩ fs
  | _ => gexfElemLoop ⟨[], []⟩ []

/-- The body of `fromGexf`'s try-block. -/
def interpGexf (tree : JVal) : Interp GraphState := do
  let gexf := jGet tree "gexf"
  let graphV ← jAccessE gexf "graph"
  let attrsV ← jAccessE graphV "attributes"
  let nodeAttrs ←
    if attrsV.defined then do
      let na ← findClass "node" (asList attrsV)
      getAttributesDefinitionAsObject na
    else pure []
  let edgeAttrs ←
    if attrsV.defined then do
      let ea ← findClass "edge" (asList attrsV)
      getAttributesDefinitionAsObject ea
    else pure []
  let ga := defaultGraphAttrs
  let ga := if (jGet graphV (attrMark ++ "id")).defined then
      { ga with id := jGet graphV (attrMark ++ "id") } else ga
  let ga := if (jGet graphV (attrMark ++ "defaultedgetype")).defined then
      { ga with edgeType := jGet graphV (attrMark ++ "defaultedgetype") } else ga
  -- the source's mode branch assigns to graphAttributes.id
  let ga := if (jGet graphV (attrMark ++ "mode")).defined then
      { ga with id := jGet graphV (attrMark ++ "mode") } else ga
  let nodesC ← jAccessE (jGet graphV "nodes") "node"
  let nodes ←
    match nodesC with
    | .arr xs => xs.mapM getGexfElementAttributes
    | _ => .error ()
  let edgesC ← jAccessE (jGet graphV "edges") "edge"
  let edges ←
    match edgesC with
    | .arr xs => xs.mapM getGexfElementAttributes
    | _ => .error ()
  pure ⟨nodes, edges, nodeAttrs, edgeAttrs, ga⟩

/-- `GraphFormatConverter.fromGexf`, over the parse outcome of the XML
collaborator (`none`: the parser threw). -/
def fromGexf (parsed : Option JVal) : Except CErr GraphState :=
  match parsed with
  | none => .error .parseErr
  | some tree =>
    match interpGexf tree with
    | .ok g => .ok g
    | .error _ => .error .malformed

/-! ### fromGraphml -/

/-- The `data` loop of `getGraphmlElementAttributes`:
`attributes[entry["key"]] = entry["#text"]`. -/
def graphmlData (attrs : Fields) : List JVal → Interp Fields
  | [] => .ok attrs
  | a :: rest => do
    let keyV ← jAccessE a (attrMark ++ "key")
    graphmlData (setF attrs (jsToString keyV) (jGet a "#text")) rest

/-- The `Object.entries(element).forEach` body of
`getGraphmlElementAttributes` (only `data` and marker-keys are used). -/
def graphmlElemLoop (e : Element) : Fields → Interp Element
  | [] => .ok e
  | (k, v) :: rest => do
    let e1 ←
      if k = "data" then do
        let attrs ← graphmlData e.attributes (asList v)
        pure { e with attributes := attrs }
      else if hasMark k then
        pure { e with fields := setF e.fields (stripMark k) v }
      else pure e
    graphmlElemLoop e1 rest

/-- The promotion block of `getGraphmlElementAttributes`: recombine
`r`/`g`/`b` into `color`, promote the position and the other well-known
keys out of `attributes`.  The `z` branch re-tests `attributes.x` (as the
source does), so it can never fire once `x` has been deleted. -/
def promoteGraphml (e : Element) : Element :=
  let e :=
    if (getF e.attributes "r").defined && (getF e.attributes "g").defined &&
        (getF e.attributes "b").defined then
      let c := tinycolor (.str ("rgb(" ++ jsToString (getF e.attributes "r") ++ ", " ++
        jsToString (getF e.attributes "g") ++ ", " ++ jsToString (getF e.attributes "b") ++ ")"))
      Element.mk (setF e.fields "color" (.color c))
        (removeF (removeF (removeF e.attributes "r") "g") "b")
    else e
  let e := if (getF e.attributes "x").defined then
      Element.mk (setF e.fields "x" (getF e.attributes "x")) (removeF e.attributes "x") else e
  let e := if (getF e.attributes "y").defined then
      Element.mk (setF e.fields "y" (getF e.attributes "y")) (removeF e.attributes "y") else e
  let e := if (getF e.attributes "x").defined then
      Element.mk (setF e.fields "z" (getF e.attributes "z")) (removeF e.attributes "z") else e
  let e := if (getF e.attributes "size").truthy then
      Element.mk (setF e.fields "size" (getF e.attributes "size")) (removeF e.attributes "size") else e
  let e := if (getF e.attributes "shape").truthy then
      Element.mk (setF e.fields "shape" (getF e.attributes "shape")) (removeF e.attributes "shape") else e
  let e := if (getF e.attributes "thickness").truthy then
      Element.mk (setF e.fields "thickness" (getF e.attributes "thickness")) (removeF e.attributes "thickness") else e
  let e := if (getF e.attributes "weight").truthy then
      Element.mk (setF e.fields "weight" (getF e.attributes "weight")) (removeF e.attributes "weight") else e
  let e := if (getF e.attributes "label").truthy then
      Element.mk (setF e.fields "label" (getF e.attributes "label")) (removeF e.attributes "label") else e
  let e := if (getF e.attributes "edgelabel").truthy then
      Element.mk (setF e.fields "edgelabel" (getF e.attributes "edgelabel")) (removeF e.attributes "edgelabel") else e
  let e := if (getF e.attributes "start").truthy then
      Element.mk (setF e.fields "start" (getF e.attributes "start")) (removeF e.attributes "start") else e
  let e := if (getF e.attributes "end").truthy then
      Element.mk (setF e.fields "end" (getF e.attributes "end")) (removeF e.attributes "end") else e
  e

/-- `GraphFormatConverter.getGraphmlElementAttributes`. -/
def getGraphmlElementAttributes (element : JVal) : Interp Element := do
  let entries ←
    match element with
    | .undefined => .error ()
    | .obj fs => pure fs
    | _ => pure ([] : Fields)
  let e ← graphmlElemLoop ⟨[], []⟩ entries
  pure (promoteGraphml e)

/-- The `graphml.key` loop of `fromGraphml`: a key that is literally the
string `id`, `source` or `target` is skipped (a key declaration is an
object, so this never skips one); every other entry becomes a node or edge
descriptor according to its `for` attribute. -/
def graphmlKeyLoop (acc : List Attribute × List Attribute) :
    List JVal → Interp (List Attribute × List Attribute)
  | [] => .ok acc
  | k :: rest => do
    if k.isStr "id" || k.isStr "source" || k.isStr "target" then graphmlKeyLoop acc rest
    else do
      let kid ← jAccessE k (attrMark ++ "id")
      let attr : Attribute :=
        ⟨kid, jGet k (attrMark ++ "attr.name"), graphmlTypeToJSON (jGet k (attrMark ++ "attr.type"))⟩
      let acc1 :=
        if (jGet k (attrMark ++ "for")).isStr "node" then (acc.1 ++ [attr], acc.2)
        else if (jGet k (attrMark ++ "for")).isStr "edge" then (acc.1, acc.2 ++ [attr])
        else acc
      graphmlKeyLoop acc1 rest

/-- The body of `fromGraphml`'s try-block. -/
def interpGraphml (tree : JVal) : Interp GraphState := do
  let graphml := jGet tree "graphml"
  let keyV ← jAccessE graphml "key"
  let attrs ←
    if keyV.defined then graphmlKeyLoop ([], []) (asList keyV)
    else pure ([], [])
  let graphV := jGet graphml "graph"
  let idV ← jAccessE graphV (attrMark ++ "id")
  let ga := defaultGraphAttrs
  let ga := if idV.defined then { ga with id := idV } else ga
  let ga := if (jGet graphV (attrMark ++ "edgedefault")).defined then
      { ga with edgeType := jGet graphV (attrMark ++ "edgedefault") } else ga
  let nodes ←
    match jGet graphV "node" with
    | .arr xs => xs.mapM getGraphmlElementAttributes
    | _ => .error ()
  let edges ←
    match jGet graphV "edge" with
    | .arr xs => xs.mapM getGraphmlElementAttributes
    | _ => .error ()
  pure ⟨nodes, edges, attrs.1, attrs.2, ga⟩

/-- `GraphFormatConverter.fromGraphml`, over the parse outcome of the XML
collaborator (`none`: the parser threw). -/
def fromGraphml (parsed : Option JVal) : Except CErr GraphState :=
  match parsed with
  | none => .error .parseErr
  | some tree =>
    match interpGraphml tree with
    | .ok g => .ok g
    | .error _ => .error .malformed

/-! ### toGexf / toGraphml -/

/-- `GraphFormatConverter.getElementAsGexfJSON`: one canonical element as
the parser-JSON of its GEXF form.  The `attributes` entry of the element is
serialized first (it is the element's first own property); `x`/`y`/`z` are
skipped by the switch and re-emitted as `viz:position` at the end, which is
omitted when empty.  (The switch's default case guards its `&`-escape with
`Number.isNaN(value)`, which is false for every non-NaN value, so the raw
value is emitted.) -/
def getElementAsGexfJSON (e : Element) : JVal :=
  let attvalues := e.attributes.map (fun (p : String × JVal) =>
    JVal.obj [(attrMark ++ "for", .str p.1), (attrMark ++ "value", .str (escAmp (jsToString p.2)))])
  let out := e.fields.foldl (fun (fs : Fields) (p : String × JVal) =>
    match p.1 with
    | "size" => setF fs "viz:size" (.obj [(attrMark ++ "value", p.2)])
    | "shape" => setF fs "viz:shape" (.obj [(attrMark ++ "value", p.2)])
    | "thickness" => setF fs "viz:thickness" (.obj [(attrMark ++ "value", p.2)])
    | "color" =>
      setF fs "viz:color" (.obj [(attrMark ++ "r", .num ((tinycolor p.2).r : Int)),
        (attrMark ++ "g", .num ((tinycolor p.2).g : Int)),
        (attrMark ++ "b", .num ((tinycolor p.2).b : Int))])
    | "x" => fs
    | "y" => fs
    | "z" => fs
    | k => setF fs (attrMark ++ k) p.2) []
  let pos : Fields :=
    (if (getF e.fields "x").defined then [(attrMark ++ "x", getF e.fields "x")] else []) ++
    (if (getF e.fields "y").defined then [(attrMark ++ "y", getF e.fields "y")] else []) ++
    (if (getF e.fields "z").defined then [(attrMark ++ "z", getF e.fields "z")] else [])
  let out := if pos.isEmpty then out else setF out "viz:position" (.obj pos)
  .obj (("attvalues", .obj [("attvalue", .arr attvalues)]) :: out)

/-- `GraphFormatConverter.toGexf`: the root tree handed to the XML builder,
paired with the (unchanged) instance state.  (The version literal `1.3` is
kept as a string: the model has integer numbers only.) -/
def toGexf (g : GraphState) : JVal × GraphState :=
  let nodeAttributes := g.nodeAttributes.map (fun a =>
    JVal.obj [(attrMark ++ "id", a.id), (attrMark ++ "title", a.title),
      (attrMark ++ "type", .str (jsonTypeToGEXF a.type))])
  let edgeAttributes := g.edgeAttributes.map (fun a =>
    JVal.obj [(attrMark ++ "id", a.id), (attrMark ++ "title", a.title),
      (attrMark ++ "type", .str (jsonTypeToGEXF a.type))])
  let root := JVal.obj [
    ("?xml", .obj [(attrMark ++ "version", .str "1.0"), (attrMark ++ "encoding", .str "UTF-8")]),
    ("gexf", .obj [
      ("graph", .obj [
        ("attributes", .arr [
          .obj [("attribute", .arr nodeAttributes), (attrMark ++ "class", .str "node"),
            (attrMark ++ "mode", .str "static")],
          .obj [("attribute", .arr edgeAttributes), (attrMark ++ "class", .str "edge"),
            (attrMark ++ "mode", .str "static")]]),
        ("nodes", .obj [("node", .arr (g.nodes.map getElementAsGexfJSON))]),
        ("edges", .obj [("edge", .arr (g.edges.map getElementAsGexfJSON))]),
        (attrMark ++ "id", g.graphAttributes.id),
        (attrMark ++ "mode", g.graphAttributes.mode),
        (attrMark ++ "defaultedgetype", g.graphAttributes.edgeType)]),
      (attrMark ++ "version", .str "1.3"),
      (attrMark ++ "xmlns:viz", .str "http://www.gexf.net/1.3/viz"),
      (attrMark ++ "xmlns:xsi", .str "http://www.w3.org/2001/XMLSchema-instance"),
      (attrMark ++ "xmlns", .str "http://www.gexf.net/1.3"),
      (attrMark ++ "xsi:schemaLocation", .str "http://www.gexf.net/1.3 http://www.gexf.net/1.3/gexf.xsd")])]
  (root, g)

/-- `GraphFormatConverter.getElementAsGraphmlJSON`: one canonical element
as the parser-JSON of its GraphML form — a `data` list (the free-form
attributes first, matching their insertion position on imported elements)
plus `id`/`source`/`target` as XML attributes; a color decomposes into
`r`/`g`/`b` data entries. -/
def getElementAsGraphmlJSON (e : Element) : JVal :=
  let data0 := e.attributes.map (fun (p : String × JVal) =>
    JVal.obj [(attrMark ++ "key", .str p.1), ("#text", .str (escAmp (jsToString p.2)))])
  let r := e.fields.foldl (fun (acc : List JVal × Fields) (p : String × JVal) =>
    match p.1 with
    | "id" => (acc.1, setF acc.2 (attrMark ++ "id") p.2)
    | "source" => (acc.1, setF acc.2 (attrMark ++ "source") p.2)
    | "target" => (acc.1, setF acc.2 (attrMark ++ "target") p.2)
    | "color" =>
      (acc.1 ++ [.obj [(attrMark ++ "key", .str "r"), ("#text", .num ((tinycolor p.2).r : Int))],
        .obj [(attrMark ++ "key", .str "g"), ("#text", .num ((tinycolor p.2).g : Int))],
        .obj [(attrMark ++ "key", .str "b"), ("#text", .num ((tinycolor p.2).b : Int))]], acc.2)
    | k =>
      (acc.1 ++ [.obj [(attrMark ++ "key", .str k), ("#text", .str (escAmp (jsToString p.2)))]], acc.2))
    (data0, [])
  .obj (("data", .arr r.1) :: r.2)

/-- Is an attribute with this id declared (`this.nodeAttributes.find`-style
checks in `toGraphml`)? -/
def hasAttrId (attrs : List Attribute) (s : String) : Bool :=
  attrs.any (fun a => a.id.isStr s)

/-- Does some element of the list carry this top-level field
(`this.nodes.find((node) => node.x !== undefined) !== undefined`)? -/
def anyField (es : List Element) (k : String) : Bool :=
  es.any (fun e => (getF e.fields k).defined)

/-- A synthesized GraphML `key` declaration. -/
def mlKey (name ty forv : String) : JVal :=
  .obj [(attrMark ++ "attr.name", .str name), (attrMark ++ "attr.type", .str ty),
    (attrMark ++ "for", .str forv), (attrMark ++ "id", .str name)]

/-- `GraphFormatConverter.toGraphml`: the root tree handed to the XML
builder, paired with the (unchanged) instance state.  The `does…NotExist`
flags become: synthesize a key iff no declared attribute claims the id and
some element carries the field; a graph of edge type `mutual` is emitted
with `edgedefault="directed"`. -/
def toGraphml (g : GraphState) : JVal × GraphState :=
  let declared := g.nodeAttributes.map (fun a =>
      JVal.obj [(attrMark ++ "attr.name", a.title),
        (attrMark ++ "attr.type", .str (jsonTypeToGRAPHML a.type)),
        (attrMark ++ "for", .str "node"), (attrMark ++ "id", a.id)]) ++
    g.edgeAttributes.map (fun a =>
      JVal.obj [(attrMark ++ "attr.name", a.title),
        (attrMark ++ "attr.type", .str (jsonTypeToGRAPHML a.type)),
        (attrMark ++ "for", .str "edge"), (attrMark ++ "id", a.id)])
  let xN := !hasAttrId g.nodeAttributes "x" && anyField g.nodes "x"
  let yN := !hasAttrId g.nodeAttributes "y" && anyField g.nodes "y"
  let zN := !hasAttrId g.nodeAttributes "z" && anyField g.nodes "z"
  let xE := !hasAttrId g.edgeAttributes "x" && anyField g.edges "x"
  let yE := !hasAttrId g.edgeAttributes "y" && anyField g.edges "y"
  let zE := !hasAttrId g.edgeAttributes "z" && anyField g.edges "z"
  let labelN := !hasAttrId g.nodeAttributes "label" && anyField g.nodes "label"
  let labelE := !hasAttrId g.edgeAttributes "label" && anyField g.edges "label"
  let edgelabelE := !hasAttrId g.edgeAttributes "edgelabel" && anyField g.edges "edgelabel"
  let sizeN := !hasAttrId g.nodeAttributes "size" && anyField g.nodes "size"
  let sizeE := !hasAttrId g.edgeAttributes "size" && anyField g.edges "size"
  let shapeN := !hasAttrId g.nodeAttributes "shape" && anyField g.nodes "shape"
  let shapeE := !hasAttrId g.edgeAttributes "shape" && anyField g.edges "shape"
  let weightE := !hasAttrId g.edgeAttributes "weight" && anyField g.edges "weight"
  let thicknessE := !hasAttrId g.edgeAttributes "thickness" && anyField g.edges "thickness"
  let colorN := !(hasAttrId g.nodeAttributes "color" || hasAttrId g.nodeAttributes "r" ||
      hasAttrId g.nodeAttributes "g" || hasAttrId g.nodeAttributes "b") && anyField g.nodes "color"
  let colorE := !(hasAttrId g.edgeAttributes "color" || hasAttrId g.edgeAttributes "r" ||
      hasAttrId g.edgeAttributes "g" || hasAttrId g.edgeAttributes "b") && anyField g.edges "color"
  let synth :=
    (if xN then [mlKey "x" "float" "node"] else []) ++
    (if yN then [mlKey "y" "float" "node"] else []) ++
    (if zN then [mlKey "z" "float" "node"] else []) ++
    (if xE then [mlKey "x" "float" "edge"] else []) ++
    (if yE then [mlKey "y" "float" "edge"] else []) ++
    (if zE then [mlKey "z" "float" "edge"] else []) ++
    (if labelN then [mlKey "label" "string" "node"] else []) ++
    (if labelE then [mlKey "label" "string" "edge"] else []) ++
    (if edgelabelE then [mlKey "edgelabel" "string" "edge"] else []) ++
    (if sizeN then [mlKey "size" "float" "node"] else []) ++
    (if shapeN then [mlKey "shape" "string" "node"] else []) ++
    (if sizeE then [mlKey "size" "float" "edge"] else []) ++
    (if shapeE then [mlKey "shape" "string" "edge"] else []) ++
    (if weightE then [mlKey "weight" "float" "edge"] else []) ++
    (if thicknessE then [mlKey "thickness" "float" "edge"] else []) ++
    (if colorN then [mlKey "r" "int" "node", mlKey "g" "int" "node", mlKey "b" "int" "node"] else []) ++
    (if colorE then [mlKey "r" "int" "edge", mlKey "g" "int" "edge", mlKey "b" "int" "edge"] else [])
  let root := JVal.obj [
    ("?xml", .obj [(attrMark ++ "version", .str "1.0"), (attrMark ++ "encoding", .str "UTF-8")]),
    ("graphml", .obj [
      ("key", .arr (declared ++ synth)),
      ("graph", .obj [
        ("node", .arr (g.nodes.map getElementAsGraphmlJSON)),
        ("edge", .arr (g.edges.map getElementAsGraphmlJSON)),
        (attrMark ++ "edgedefault",
          if g.graphAttributes.edgeType.isStr "mutual" then .str "directed"
          else g.graphAttributes.edgeType),
        (attrMark ++ "id", g.graphAttributes.id)]),
      (attrMark ++ "xmlns", .str "http://graphml.graphdrawing.org/xmlns")])]
  (root, g)

/-! ### Derived definitions used by the statements and proofs -/

/-- The names `fromJson`'s rearranging loop keeps as top-level fields
(reserved keys other than the `attributes` map itself). -/
def keepFieldNames : List String :=
  ["color", "id", "size", "weight", "target", "source", "label", "edgelabel",
    "shape", "x", "y", "z"]

/-- An element with its color field (if any) re-read through the color
collaborator — the canonical element a JSON re-import produces. -/
def colorCanon (e : Element) : Element :=
  if (getF e.fields "color").defined then
    { e with fields := setF e.fields "color" (.color (tinycolor (getF e.fields "color"))) }
  else e

/-- Feed a flat observation sequence to the guesser. -/
def guessAll (obs : List (String × JVal)) : Guess :=
  obs.foldl (fun g p => guessJSONAttribute g p.1 p.2) []

/-- Feed a sequence of free-form attribute maps (one per element) to the
guesser, exactly as `fromJson` does. -/
def guessMaps (maps : List Fields) : Guess :=
  maps.foldl (fun g attrs => attrs.foldl (fun g p => guessJSONAttribute g p.1 p.2) g) []

/-- The guesser entry of a key. -/
def findEntry (g : Guess) (k : String) : Option GuessEntry :=
  match g with
  | [] => none
  | (a, e) :: rest => if a = k then some e else findEntry rest k

/-- The types observed for one key (in observation order). -/
def typesFor (k : String) (obs : List (String × JVal)) : List String :=
  obs.filterMap (fun p => if p.1 = k then some p.2.typeOf else none)

/-- Build the per-type counters of an observed type sequence. -/
def buildCounts (ts : List String) : List (String × Nat) :=
  ts.foldl incrCount []

/-- The keys of a field list, in insertion order. -/
def keysF (fs : Fields) : List String := fs.map Prod.fst

/-- A GEXF parse tree whose graph carries `mode="dynamic"` and `id="g1"`
and holds one node and one edge, the edge with a `viz:size` element. -/
def gexfScene : JVal :=
  .obj [("gexf", .obj [("graph", .obj [
    ("nodes", .obj [("node", .arr [.obj [(attrMark ++ "id", .str "n1"),
      ("attvalues", .obj [("attvalue", .obj [(attrMark ++ "for", .str "a"),
        (attrMark ++ "value", .num 4)])])]])]),
    ("edges", .obj [("edge", .arr [.obj [(attrMark ++ "id", .str "e1"),
      (attrMark ++ "source", .str "n1"), (attrMark ++ "target", .str "n1"),
      ("size", .obj [(attrMark ++ "value", .num 3)])]])]),
    (attrMark ++ "id", .str "g1"), (attrMark ++ "mode", .str "dynamic")])])]

/-- A GraphML node element whose data entries set `x = 1` and `z = 3`. -/
def graphmlNodeXZ : JVal :=
  .obj [(attrMark ++ "id", .str "n1"),
    ("data", .arr [.obj [(attrMark ++ "key", .str "x"), ("#text", .num 1)],
      .obj [(attrMark ++ "key", .str "z"), ("#text", .num 3)]])]

/-- A GraphML node element whose only data entry sets `z = 3`. -/
def graphmlNodeZ : JVal :=
  .obj [(attrMark ++ "id", .str "n1"),
    ("data", .arr [.obj [(attrMark ++ "key", .str "z"), ("#text", .num 3)]])]

/-- A GEXF node element with a `viz:shape` child of value `disc`
(namespace-stripped to `shape` by the parser). -/
def gexfNodeShape : JVal :=
  .obj [(attrMark ++ "id", .str "n1"),
    ("shape", .obj [(attrMark ++ "value", .str "disc")])]

/-- A GEXF node element with a `viz:thickness` child of value `5`. -/
def gexfNodeThickness : JVal :=
  .obj [(attrMark ++ "id", .str "n1"),
    ("thickness", .obj [(attrMark ++ "value", .num 5)])]

/-- A GraphML parse tree declaring one node key named `id` and holding no
nodes or edges. -/
def graphmlKeyIdTree : JVal :=
  .obj [("graphml", .obj [
    ("key", .obj [(attrMark ++ "id", .str "id"), (attrMark ++ "attr.name", .str "id"),
      (attrMark ++ "attr.type", .str "string"), (attrMark ++ "for", .str "node")]),
    ("graph", .obj [("node", .arr []), ("edge", .arr [])])])]

/-- A one-node graph with no colors (for the exporter frame condition). -/
def plainGraph : GraphState :=
  ⟨[⟨[("id", .str "a")], []⟩],
   [⟨[("id", .str "e"), ("source", .str "a"), ("target", .str "a")], []⟩],
   [], [], defaultGraphAttrs⟩

/-- The attribute-moving effect of `reorganizeLoop`, without the guesser
state (the element result of the loop does not depend on it): returns the
updated `attributes` map and the kept fields. -/
def moveLoop (attrs : Fields) : Fields → Fields × Fields
  | [] => (attrs, [])
  | (k, v) :: rest =>
    if k = "attributes" ∨ k = "color" ∨ k = "id" ∨ k = "size" ∨ k = "weight" ∨
        k = "target" ∨ k = "source" ∨ k = "label" ∨ k = "edgelabel" ∨ k = "shape" ∨
        k = "x" ∨ k = "y" ∨ k = "z" then
      let r := moveLoop attrs rest
      (r.1, (k, v) :: r.2)
    else moveLoop (if v.defined then setF attrs k v else attrs) rest

/-! ## Helper lemmas -/

theorem getF_setF_self (fs : Fields) (k : String) (v : JVal) :
    getF (setF fs k v) k = v := by
  induction fs with
  | nil => simp [setF, getF]
  | cons p rest ih =>
    obtain ⟨a, w⟩ := p
    by_cases h : a = k
    · simp [setF, getF, h]
    · simp [setF, getF, h, ih]

theorem getF_setF_ne (fs : Fields) {k k' : String} (v : JVal) (h : k' ≠ k) :
    getF (setF fs k' v) k = getF fs k := by
  induction fs with
  | nil => simp [setF, getF, fun hh => h hh]
  | cons p rest ih =>
    obtain ⟨a, w⟩ := p
    by_cases ha : a = k'
    · subst ha
      simp [setF, getF, h, ih]
    · by_cases hak : a = k
      · simp [setF, getF, ha, hak, Ne.symm h]
      · simp [setF, getF, ha, hak, ih]

theorem setF_setF (fs : Fields) (k : String) (a b : JVal) :
    setF (setF fs k a) k b = setF fs k b := by
  induction fs with
  | nil => simp [setF]
  | cons p rest ih =>
    obtain ⟨x, w⟩ := p
    by_cases h : x = k
    · simp [setF, h]
    · simp [setF, h, ih]

theorem mem_setF {fs : Fields} {k : String} {v : JVal} :
    ∀ p ∈ setF fs k v, p.1 = k ∨ p ∈ fs := by
  induction fs with
  | nil => simp [setF]
  | cons q rest ih =>
    obtain ⟨x, w⟩ := q
    by_cases h : x = k
    · intro p hp
      simp [setF, h] at hp
      rcases hp with hp | hp
      · subst h; left; simp [hp]
      · right; simp [hp]
    · intro p hp
      simp [setF, h] at hp
      rcases hp with hp | hp
      · right; simp [hp]
      · rcases ih p hp with h1 | h1
        · left; exact h1
        · right; simp [h1]

theorem digitVal_digitChar {d : Nat} (h : d < 10) :
    digitVal (digitChar d) = some d := by
  interval_cases d <;> decide

theorem readDigits_natDigits (n : Nat) :
    ∀ (acc : Nat) (seen : Bool) (cs : List Char),
      readDigits (natDigits n ++ cs) acc seen =
        readDigits cs (acc * 10 ^ (natDigits n).length + n) true := by
  induction n using Nat.strong_induction_on with
  | _ n ih =>
    intro acc seen cs
    by_cases h : n < 10
    · rw [natDigits]
      simp only [h, dite_true, List.cons_append, List.nil_append, List.length_cons,
        List.length_nil]
      simp [readDigits, digitVal_digitChar h]
    · rw [natDigits]
      simp only [h, dite_false, List.append_assoc, List.cons_append, List.nil_append]
      rw [ih (n / 10) (Nat.div_lt_self (by omega) (by omega)) acc seen]
      simp only [readDigits, digitVal_digitChar (show n % 10 < 10 by omega)]
      congr 1
      have hdm : 10 * (n / 10) + n % 10 = n := Nat.div_add_mod n 10
      have hlen : (natDigits (n / 10) ++ [digitChar (n % 10)]).length =
          (natDigits (n / 10)).length + 1 := by simp
      rw [hlen]
      calc (acc * 10 ^ (natDigits (n / 10)).length + n / 10) * 10 + n % 10
          = acc * (10 ^ (natDigits (n / 10)).length * 10) + (10 * (n / 10) + n % 10) := by ring
        _ = acc * 10 ^ ((natDigits (n / 10)).length + 1) + n := by rw [hdm, pow_succ]

theorem parseRgb_rgbString (c : Color) : parseRgb (rgbString c) = some c := by
  obtain ⟨r, g, b⟩ := c
  show parseRgbChars (rgbChars ⟨r, g, b⟩) = some ⟨r, g, b⟩
  have hsplit : rgbChars ⟨r, g, b⟩ =
      'r' :: 'g' :: 'b' :: '(' ::
        (natDigits r ++ (',' :: ' ' :: (natDigits g ++ (',' :: ' ' ::
          (natDigits b ++ [')']))))) := by
    simp [rgbChars]
  rw [hsplit]
  have hstop : ∀ (cs : List Char) (acc : Nat),
      readDigits (',' :: ' ' :: cs) acc true = some (acc, ',' :: ' ' :: cs) := by
    intro cs acc; rfl
  have hclose : ∀ (acc : Nat), readDigits [')'] acc true = some (acc, [')']) := by
    intro acc; rfl
  simp only [parseRgbChars, readDigits_natDigits, hstop, hclose, Nat.zero_mul,
    Nat.zero_add]

theorem tinycolor_rgbString (c : Color) : tinycolor (.str (rgbString c)) = c := by
  simp [tinycolor, parseRgb_rgbString]

theorem mem_keysF_of_defined (fs : Fields) (k : String)
    (h : (getF fs k).defined = true) : k ∈ keysF fs := by
  induction fs with
  | nil => simp [getF, JVal.defined] at h
  | cons p rest ih =>
    obtain ⟨a, w⟩ := p
    by_cases ha : a = k
    · simp [keysF, ha]
    · simp [getF, ha] at h
      simp [keysF] at ih ⊢
      right
      exact ih h

theorem keysF_setF_mem (fs : Fields) (k : String) (v : JVal) (h : k ∈ keysF fs) :
    keysF (setF fs k v) = keysF fs := by
  induction fs with
  | nil => simp [keysF] at h
  | cons p rest ih =>
    obtain ⟨a, w⟩ := p
    by_cases ha : a = k
    · simp [setF, ha, keysF]
    · have hk : k ∈ keysF rest := by
        rcases (by simpa [keysF] using h : k = a ∨ k ∈ keysF rest) with h1 | h1
        · exact absurd h1.symm ha
        · exact h1
      rw [show setF ((a, w) :: rest) k v = (a, w) :: setF rest k v from by simp [setF, ha]]
      calc keysF ((a, w) :: setF rest k v) = a :: keysF (setF rest k v) := rfl
        _ = a :: keysF rest := by rw [ih hk]
        _ = keysF ((a, w) :: rest) := rfl

theorem asList_of_not_arr {x : JVal} (h : x.isArr = false) : asList x = [x] := by
  cases x <;> simp_all [asList, JVal.isArr]

/-! ## Claim C2 — GraphML reserved-field promotion and the `z` defect -/

/-- C2: on GraphML import every data entry among x, y, z, size, shape,
thickness, weight, label, edgelabel, start, end is promoted out of
`attributes` into a top-level field — in particular `z`.  The code does
not do this for `z`: its guard re-tests `attributes.x`, which was just
deleted, so a node whose data carries `z = 3` keeps `z` inside
`attributes` and gets no top-level `z`, whether or not `x` is present. -/
theorem claim2_graphml_z_never_promoted :
    (getGraphmlElementAttributes graphmlNodeXZ).toOption.map
        (fun e => (getF e.fields "x", getF e.fields "z", getF e.attributes "z")) =
      some (.num 1, .undefined, .num 3) ∧
    (getGraphmlElementAttributes graphmlNodeZ).toOption.map
        (fun e => (getF e.fields "z", getF e.attributes "z")) =
      some (.undefined, .num 3) := ⟨rfl, rfl⟩

/-! ## Claim C3 — GEXF viz:size / viz:shape / viz:thickness -/

/-- C3: on GEXF import `viz:size`, `viz:shape` and `viz:thickness` are each
meant to set their own canonical field.  The code's `shape` and
`thickness` cases both assign `Number(value)` to `elementData.size`: a node
with `viz:shape value="disc"` ends with `size = NaN` and no `shape` field,
and a node with `viz:thickness value="5"` ends with `size = 5` and no
`thickness` field. -/
theorem claim3_gexf_viz_fields_collide :
    (getGexfElementAttributes gexfNodeShape).toOption.map
        (fun e => (getF e.fields "shape", getF e.fields "size")) =
      some (.undefined, .nan) ∧
    (getGexfElementAttributes gexfNodeThickness).toOption.map
        (fun e => (getF e.fields "thickness", getF e.fields "size")) =
      some (.undefined, .num 5) := ⟨rfl, rfl⟩

/-! ## Claim C4 — GEXF graph-level attributes -/

/-- C4: the GEXF importer should put the graph element's `mode` attribute
into the model's `mode`, leaving `id` alone.  The code's mode branch
assigns to `graphAttributes.id`: for a graph with `id="g1"` and
`mode="dynamic"` the resulting id is `dynamic` (not `g1`) and the mode
stays at its `static` default. -/
theorem claim4_gexf_mode_overwrites_id :
    (fromGexf (some gexfScene)).toOption.map
        (fun g => (g.graphAttributes.id, g.graphAttributes.mode,
          g.graphAttributes.edgeType)) =
      some (.str "dynamic", .str "static", .str "undirected") := rfl

/-! ## Claim C5 — GraphML key declarations named id/source/target -/

/-- C5: key declarations named `id`, `source` or `target` are supposed to
be dropped.  The code compares the whole parsed key object against the
strings, which is never true of a declaration, so a key declared with
`id="id"` still yields a node descriptor. -/
theorem claim5_graphml_key_id_not_dropped :
    (fromGraphml (some graphmlKeyIdTree)).toOption.map
        (fun g => (g.nodeAttributes.map Attribute.id,
          g.nodeAttributes.map Attribute.type)) =
      some ([.str "id"], ["string"]) := rfl

/-! ## Claim C7 — exporter frame condition -/

/-- C7 is false as stated: `toGraphology` mutates the stored elements
beyond color normalization.  On a colorless one-node one-edge graph it
adds a `key` field to the stored node and `undirected` (and `key`) to the
stored edge, even though color normalization is the identity here. -/
theorem claim7_exporter_frame_cex :
    ((toGraphology plainGraph).2.nodes.map (fun e => getF e.fields "key") = [.str "a"]) ∧
    (plainGraph.nodes.map (fun e => getF e.fields "key") = [.undefined]) ∧
    ((toGraphology plainGraph).2.edges.map (fun e => getF e.fields "undirected") = [.bool true]) ∧
    (plainGraph.edges.map (fun e => getF e.fields "undirected") = [.undefined]) ∧
    (plainGraph.nodes.map normColorEl = plainGraph.nodes) ∧
    (plainGraph.edges.map normColorEl = plainGraph.edges) :=
  ⟨rfl, rfl, rfl, rfl, rfl, rfl⟩

/-- C7 (amended): `toGexf` and `toGraphml` leave the instance state
untouched; `toJson` changes stored elements only by re-rendering their
color values in place (field names, non-color values and the attribute
maps are preserved); `toGraphology` preserves the schemas, the graph
attributes and the element counts, but additionally writes `key` and
`undirected` fields onto the stored elements. -/
theorem claim7_exporter_frame_amended (g : GraphState) :
    (toGexf g).2 = g ∧
    (toGraphml g).2 = g ∧
    (toJson g).2.nodes = g.nodes.map normColorEl ∧
    (toJson g).2.edges = g.edges.map normColorEl ∧
    (toJson g).2.nodeAttributes = g.nodeAttributes ∧
    (toJson g).2.edgeAttributes = g.edgeAttributes ∧
    (toJson g).2.graphAttributes = g.graphAttributes ∧
    (toGraphology g).2.nodeAttributes = g.nodeAttributes ∧
    (toGraphology g).2.edgeAttributes = g.edgeAttributes ∧
    (toGraphology g).2.graphAttributes = g.graphAttributes ∧
    (toGraphology g).2.nodes.length = g.nodes.length ∧
    (toGraphology g).2.edges.length = g.edges.length ∧
    (∀ e : Element, keysF (normColorEl e).fields = keysF e.fields ∧
      (normColorEl e).attributes = e.attributes ∧
      ∀ k, k ≠ "color" → getF (normColorEl e).fields k = getF e.fields k) := by
  refine ⟨rfl, rfl, rfl, rfl, rfl, rfl, rfl, rfl, rfl, rfl, ?_, ?_, ?_⟩
  · simp [toGraphology]
  · simp [toGraphology]
  · intro e
    refine ⟨?_, ?_, ?_⟩
    · by_cases h : (getF e.fields "color").defined
      · simp only [normColorEl, h, if_true]
        exact keysF_setF_mem _ _ _ (mem_keysF_of_defined _ _ h)
      · simp [normColorEl, h]
    · by_cases h : (getF e.fields "color").defined <;> simp [normColorEl, h]
    · intro k hk
      by_cases h : (getF e.fields "color").defined
      · simp only [normColorEl, h, if_true]
        exact getF_setF_ne _ _ (fun hh => hk hh.symm)
      · simp [normColorEl, h]

/-- Witness for C7 (amended) at the concrete colorless graph. -/
theorem claim7_exporter_frame_witness :
    (toGexf plainGraph).2 = plainGraph ∧
    getF (normColorEl ⟨[("id", .str "a")], []⟩).fields "id" = .str "a" := by
  obtain ⟨h1, -, -, -, -, -, -, -, -, -, -, -, hel⟩ :=
    claim7_exporter_frame_amended plainGraph
  refine ⟨h1, ?_⟩
  rw [(hel ⟨[("id", .str "a")], []⟩).2.2 "id" (by decide)]
  rfl

/-! ## Claim C9 — lossy mutual-edge mapping -/

/-- C9: a graph with edge type `mutual` is exported to GraphML with
`edgedefault="directed"` while GEXF writes `defaultedgetype="mutual"`
verbatim; every other edge type is written unchanged by both exporters. -/
theorem claim9_mutual_mapping (g : GraphState) :
    (g.graphAttributes.edgeType = .str "mutual" →
      jGet (jGet (jGet (toGraphml g).1 "graphml") "graph") (attrMark ++ "edgedefault") =
        .str "directed" ∧
      jGet (jGet (jGet (toGexf g).1 "gexf") "graph") (attrMark ++ "defaultedgetype") =
        .str "mutual") ∧
    (g.graphAttributes.edgeType.isStr "mutual" = false →
      jGet (jGet (jGet (toGraphml g).1 "graphml") "graph") (attrMark ++ "edgedefault") =
        g.graphAttributes.edgeType ∧
      jGet (jGet (jGet (toGexf g).1 "gexf") "graph") (attrMark ++ "defaultedgetype") =
        g.graphAttributes.edgeType) := by
  have hml : jGet (jGet (jGet (toGraphml g).1 "graphml") "graph") (attrMark ++ "edgedefault") =
      (if g.graphAttributes.edgeType.isStr "mutual" then JVal.str "directed"
        else g.graphAttributes.edgeType) := rfl
  have hgx : jGet (jGet (jGet (toGexf g).1 "gexf") "graph") (attrMark ++ "defaultedgetype") =
      g.graphAttributes.edgeType := rfl
  constructor
  · intro h
    rw [hml, hgx, h]
    exact ⟨rfl, rfl⟩
  · intro h
    rw [hml, hgx, h]
    simp

/-- Witness for C9 at a `mutual` graph and a `directed` graph. -/
theorem claim9_mutual_mapping_witness :
    (jGet (jGet (jGet (toGraphml ⟨[], [], [], [], ⟨.str "g", .str "mutual", .str "static"⟩⟩).1
        "graphml") "graph") (attrMark ++ "edgedefault") = .str "directed") ∧
    (jGet (jGet (jGet (toGraphml ⟨[], [], [], [], ⟨.str "g", .str "directed", .str "static"⟩⟩).1
        "graphml") "graph") (attrMark ++ "edgedefault") = .str "directed") ∧
    (jGet (jGet (jGet (toGexf ⟨[], [], [], [], ⟨.str "g", .str "directed", .str "static"⟩⟩).1
        "gexf") "graph") (attrMark ++ "defaultedgetype") = .str "directed") := by
  refine ⟨((claim9_mutual_mapping _).1 rfl).1, ?_, ?_⟩
  · exact ((claim9_mutual_mapping ⟨[], [], [], [], ⟨.str "g", .str "directed", .str "static"⟩⟩).2
      (by rfl)).1
  · exact ((claim9_mutual_mapping ⟨[], [], [], [], ⟨.str "g", .str "directed", .str "static"⟩⟩).2
      (by rfl)).2

/-! ## Claim C8 — two-tier error handling of the XML importers -/

/-- C8: for every parse outcome, `fromGexf` and `fromGraphml` raise the
XML-parse error exactly when the parser threw; on a parsed tree each
either returns a graph or raises the single generic malformed-file error —
there is no partial result and no third error kind. -/
theorem claim8_two_tier_errors (p : Option JVal) :
    (fromGexf p = .error .parseErr ↔ p = none) ∧
    (fromGraphml p = .error .parseErr ↔ p = none) ∧
    (∀ t, p = some t →
      (fromGexf p = .error .malformed ∨ ∃ g, fromGexf p = .ok g) ∧
      (fromGraphml p = .error .malformed ∨ ∃ g, fromGraphml p = .ok g)) := by
  cases p with
  | none =>
    refine ⟨by simp [fromGexf], by simp [fromGraphml], ?_⟩
    intro t ht
    exact absurd ht (by simp)
  | some t =>
    refine ⟨?_, ?_, ?_⟩
    · cases h : interpGexf t with
      | ok g => simp [fromGexf, h]
      | error u => simp [fromGexf, h]
    · cases h : interpGraphml t with
      | ok g => simp [fromGraphml, h]
      | error u => simp [fromGraphml, h]
    · intro t' ht
      constructor
      · cases h : interpGexf t with
        | ok g => exact Or.inr ⟨g, by simp [fromGexf, h]⟩
        | error u => exact Or.inl (by simp [fromGexf, h])
      · cases h : interpGraphml t with
        | ok g => exact Or.inr ⟨g, by simp [fromGraphml, h]⟩
        | error u => exact Or.inl (by simp [fromGraphml, h])

/-- Witness for C8 at a failed parse and at a well-formed tree. -/
theorem claim8_two_tier_errors_witness :
    fromGexf none = .error .parseErr ∧
    (fromGexf (some gexfScene) = .error .malformed ∨
      ∃ g, fromGexf (some gexfScene) = .ok g) :=
  ⟨(claim8_two_tier_errors none).1.mpr rfl,
    ((claim8_two_tier_errors (some gexfScene)).2.2 gexfScene rfl).1⟩

theorem asList_arr (xs : List JVal) : asList (.arr xs) = xs := rfl

/-! ## Claim C10 — single-element containers are rejected -/

/-- C10: a parsed GEXF tree whose `nodes` container holds a single node
object (not an array) — the shape the parser delivers for one element —
makes `fromGexf` raise the generic malformed error instead of building a
one-node graph, and likewise `fromGraphml` for a single `edge` object; yet
single entries inside `attvalues`, `data`, `key` and `attributes` lists
are normalized to one-element arrays and accepted. -/
theorem claim10_single_element_rejected :
    (∀ (nfs : Fields) (edgesV : JVal),
      fromGexf (some (.obj [("gexf", .obj [("graph", .obj
        [("nodes", .obj [("node", .obj nfs)]), ("edges", edgesV)])])])) =
        .error .malformed) ∧
    (∀ (ns : List JVal) (efs : Fields),
      fromGraphml (some (.obj [("graphml", .obj [("graph", .obj
        [("node", .arr ns), ("edge", .obj efs)])])])) = .error .malformed) ∧
    (∀ x : JVal, x.isArr = false →
      getGexfElementAttributes (.obj [("attvalues", .obj [("attvalue", x)])]) =
        getGexfElementAttributes (.obj [("attvalues", .obj [("attvalue", .arr [x])])])) ∧
    (∀ x : JVal, x.isArr = false →
      getGraphmlElementAttributes (.obj [("data", x)]) =
        getGraphmlElementAttributes (.obj [("data", .arr [x])])) ∧
    (∀ (x : JVal) (acc : List Attribute × List Attribute), x.isArr = false →
      graphmlKeyLoop acc (asList x) = graphmlKeyLoop acc [x]) ∧
    (∀ (x : JVal) (cls : String), x.isArr = false →
      findClass cls (asList x) = findClass cls [x]) ∧
    (∀ x : JVal, x.isArr = false →
      gexfAttrList (asList x) = gexfAttrList [x]) := by
  refine ⟨?_, ?_, ?_, ?_, ?_, ?_, ?_⟩
  · intro nfs edgesV
    rfl
  · intro ns efs
    have hT : interpGraphml (.obj [("graphml", .obj [("graph", .obj
        [("node", .arr ns), ("edge", .obj efs)])])]) =
        (ns.mapM getGraphmlElementAttributes).bind
          (fun _ => (.error () : Interp GraphState)) := rfl
    rw [show fromGraphml (some (.obj [("graphml", .obj [("graph", .obj
        [("node", .arr ns), ("edge", .obj efs)])])])) =
      (match interpGraphml (.obj [("graphml", .obj [("graph", .obj
        [("node", .arr ns), ("edge", .obj efs)])])]) with
        | .ok g => .ok g
        | .error _ => .error .malformed) from rfl, hT]
    cases hm : ns.mapM getGraphmlElementAttributes with
    | ok l => rfl
    | error u => rfl
  · intro x hx
    simp [getGexfElementAttributes, gexfElemLoop, jAccessE, jGet, getF,
      bind, Except.bind, pure, Except.pure, asList_arr, asList_of_not_arr hx]
  · intro x hx
    simp [getGraphmlElementAttributes, graphmlElemLoop, jAccessE, bind,
      Except.bind, pure, Except.pure, asList_arr, asList_of_not_arr hx]
  · intro x acc hx
    rw [asList_of_not_arr hx]
  · intro x cls hx
    rw [asList_of_not_arr hx]
  · intro x hx
    rw [asList_of_not_arr hx]

/-- Witness for C10 at concrete single-element trees. -/
theorem claim10_single_element_witness :
    fromGexf (some (.obj [("gexf", .obj [("graph", .obj
      [("nodes", .obj [("node", .obj [(attrMark ++ "id", .str "n1")])]),
        ("edges", .obj [("edge", .arr [])])])])])) = .error .malformed ∧
    fromGraphml (some (.obj [("graphml", .obj [("graph", .obj
      [("node", .arr []), ("edge", .obj [(attrMark ++ "id", .str "e1")])])])])) =
      .error .malformed ∧
    getGexfElementAttributes (.obj [("attvalues", .obj [("attvalue",
      .obj [(attrMark ++ "for", .str "a"), (attrMark ++ "value", .num 4)])])]) =
      getGexfElementAttributes (.obj [("attvalues", .obj [("attvalue", .arr
        [.obj [(attrMark ++ "for", .str "a"), (attrMark ++ "value", .num 4)]])])]) :=
  ⟨claim10_single_element_rejected.1 [(attrMark ++ "id", .str "n1")] (.obj [("edge", .arr [])]),
    claim10_single_element_rejected.2.1 [] [(attrMark ++ "id", .str "e1")],
    claim10_single_element_rejected.2.2.1 _ rfl⟩

/-! ## Claim C1 — JSON round-trip: counterexample -/

/-- C1 is false as stated: the GEXF importer puts a `viz:size` value on an
edge as its `size` field, and the JSON re-import renames an edge's `size`
to `weight`, so the round-tripped canonical model differs from the
original (`size` is gone, `weight` appeared). -/
theorem claim1_json_roundtrip_cex :
    (fromGexf (some gexfScene)).toOption.map (fun g =>
      let g2 := fromJson (docAsJsonIn (toJson g).1)
      (g.edges.map (fun e => getF e.fields "size"),
       g2.edges.map (fun e => getF e.fields "size"),
       g2.edges.map (fun e => getF e.fields "weight"),
       g.edges.map (fun e => getF e.fields "weight"))) =
      some ([.num 3], [.undefined], [.num 3], [.undefined]) ∧
    JVal.num 3 ≠ JVal.undefined :=
  ⟨rfl, fun h => JVal.noConfusion h⟩

/-! ## Claim C1 — JSON round-trip: the amended statement -/

theorem reorganizeLoop_snd (g : Guess) (attrs fs : Fields) :
    (reorganizeLoop g attrs fs).2 = moveLoop attrs fs := by
  induction fs generalizing g attrs with
  | nil => rfl
  | cons p rest ih =>
    obtain ⟨k, v⟩ := p
    by_cases hk : k = "attributes" ∨ k = "color" ∨ k = "id" ∨ k = "size" ∨ k = "weight" ∨
        k = "target" ∨ k = "source" ∨ k = "label" ∨ k = "edgelabel" ∨ k = "shape" ∨
        k = "x" ∨ k = "y" ∨ k = "z"
    · simp only [reorganizeLoop, moveLoop, hk, if_true]
      rcases hA : reorganizeLoop (if k = "attributes" ∨ k = "color" ∨ k = "id" ∨
          k = "source" ∨ k = "target" then g else guessJSONAttribute g k v) attrs rest
        with ⟨g2, r2⟩
      have := ih (if k = "attributes" ∨ k = "color" ∨ k = "id" ∨
          k = "source" ∨ k = "target" then g else guessJSONAttribute g k v) attrs
      rw [hA] at this
      have h2 : r2 = moveLoop attrs rest := this
      rw [h2]
    · simp only [reorganizeLoop, moveLoop, hk, if_false]
      exact ih _ _

theorem moveLoop_kept (attrs : Fields) (fs : Fields)
    (h : ∀ p ∈ fs, p.1 ∈ keepFieldNames) : moveLoop attrs fs = (attrs, fs) := by
  induction fs with
  | nil => rfl
  | cons p rest ih =>
    obtain ⟨k, v⟩ := p
    have hk := h (k, v) (by simp)
    have hrest : ∀ p ∈ rest, p.1 ∈ keepFieldNames := fun q hq => h q (by simp [hq])
    simp only [keepFieldNames, List.mem_cons, List.not_mem_nil, or_false] at hk
    rcases hk with h1|h1|h1|h1|h1|h1|h1|h1|h1|h1|h1|h1 <;> subst h1 <;>
      simp [moveLoop, ih hrest]

theorem normColorEl_attributes (e : Element) : (normColorEl e).attributes = e.attributes := by
  by_cases h : (getF e.fields "color").defined <;> simp [normColorEl, h]

theorem reorganizeElement_roundtrip (G : Guess) (isNode : Bool) (e : Element)
    (hf : ∀ p ∈ e.fields, p.1 ∈ keepFieldNames)
    (hs : isNode = true ∨ (getF e.fields "size").defined = false) :
    (reorganizeElement G isNode (elemAsJsonIn (normColorEl e))).2 = colorCanon e := by
  by_cases hc : (getF e.fields "color").defined
  · -- the color field round-trips through the canonical rgb string
    have hfields : (normColorEl e).fields =
        setF e.fields "color" (.str (rgbString (tinycolor (getF e.fields "color")))) := by
      simp [normColorEl, hc]
    have hattrs : (normColorEl e).attributes = e.attributes := normColorEl_attributes e
    simp only [reorganizeElement, elemAsJsonIn, hattrs, hfields]
    have hget : getF (setF e.fields "color"
        (.str (rgbString (tinycolor (getF e.fields "color"))))) "color" =
        .str (rgbString (tinycolor (getF e.fields "color"))) := getF_setF_self _ _ _
    simp only [hget, JVal.defined, if_true]
    have hfix : setF (setF e.fields "color"
          (.str (rgbString (tinycolor (getF e.fields "color"))))) "color"
        (.color (tinycolor (.str (rgbString (tinycolor (getF e.fields "color")))))) =
        setF e.fields "color" (.color (tinycolor (getF e.fields "color"))) := by
      rw [setF_setF, tinycolor_rgbString]
    rw [hfix]
    have hmem : ∀ p ∈ setF e.fields "color" (.color (tinycolor (getF e.fields "color"))),
        p.1 ∈ keepFieldNames := by
      intro p hp
      rcases mem_setF p hp with h1 | h1
      · rw [h1]; simp [keepFieldNames]
      · exact hf p h1
    rw [reorganizeLoop_snd, moveLoop_kept _ _ hmem]
    have hsize : (getF (setF e.fields "color"
        (.color (tinycolor (getF e.fields "color")))) "size").defined =
        (getF e.fields "size").defined := by
      rw [getF_setF_ne _ _ (by decide : ("color" : String) ≠ "size")]
    rcases hs with h1 | h1
    · subst h1
      simp [colorCanon, hc]
    · simp only [colorCanon, hc, if_true]
      simp [hsize, h1]
      intro _ habs
      have hd : (getF (setF e.fields "color"
          (.color (tinycolor (getF e.fields "color")))) "size").defined = true := habs
      rw [hsize, h1] at hd
      exact absurd hd (by simp)
  · have hsame : normColorEl e = e := by simp [normColorEl, hc]
    rw [hsame]
    simp only [reorganizeElement, elemAsJsonIn]
    simp only [hc, Bool.false_eq_true, if_false]
    rw [reorganizeLoop_snd, moveLoop_kept _ _ hf]
    rcases hs with h1 | h1
    · subst h1
      simp [colorCanon, hc]
    · simp [h1, colorCanon, hc]

theorem normColorEl_colorCanon (e : Element) :
    normColorEl (colorCanon e) = normColorEl e := by
  by_cases hc : (getF e.fields "color").defined
  · simp only [colorCanon, hc, if_true]
    have hget : getF (setF e.fields "color" (.color (tinycolor (getF e.fields "color"))))
        "color" = .color (tinycolor (getF e.fields "color")) := getF_setF_self _ _ _
    simp only [normColorEl, hget, setF_setF]
    rw [hc]
    simp [JVal.defined, tinycolor]
  · simp [colorCanon, hc]

theorem colorCanon_attributes (e : Element) : (colorCanon e).attributes = e.attributes := by
  by_cases h : (getF e.fields "color").defined <;> simp [colorCanon, h]

theorem getF_colorCanon_ne (e : Element) {k : String} (h : k ≠ "color") :
    getF (colorCanon e).fields k = getF e.fields k := by
  by_cases hc : (getF e.fields "color").defined
  · simp only [colorCanon, hc, if_true]
    exact getF_setF_ne _ _ (fun hh => h hh.symm)
  · simp [colorCanon, hc]

theorem reorganizeElement_snd_const (g g' : Guess) (b : Bool) (e : JsonElem) :
    (reorganizeElement g b e).2 = (reorganizeElement g' b e).2 := by
  simp only [reorganizeElement]
  cases e.attributes <;> simp only [reorganizeLoop_snd]

theorem mapAccuml_reorg_snd (b : Bool) (g0 : Guess) (l : List JsonElem) :
    (mapAccuml (fun g e => reorganizeElement g b e) g0 l).2 =
      l.map (fun e => (reorganizeElement [] b e).2) := by
  induction l generalizing g0 with
  | nil => rfl
  | cons e rest ih =>
    simp only [mapAccuml, List.map_cons]
    rw [ih, reorganizeElement_snd_const g0 []]

/-- C1 (amended): for a canonical graph whose elements carry only reserved
top-level field names and whose edges have no `size` field (which all
importers produce except for an edge-level viz/data size), exporting with
`toJson` and re-importing with `fromJson` preserves the node and edge
counts, the ids, the reserved fields, the `attributes` maps and the graph
attributes, with every color field rendered as the same canonical
rgb(...) string. -/
theorem claim1_json_roundtrip_amended (g : GraphState)
    (hn : ∀ e ∈ g.nodes, ∀ p ∈ e.fields, p.1 ∈ keepFieldNames)
    (he : ∀ e ∈ g.edges, (∀ p ∈ e.fields, p.1 ∈ keepFieldNames) ∧
      (getF e.fields "size").defined = false) :
    (fromJson (docAsJsonIn (toJson g).1)).nodes.map normColorEl = g.nodes.map normColorEl ∧
    (fromJson (docAsJsonIn (toJson g).1)).edges.map normColorEl = g.edges.map normColorEl ∧
    (fromJson (docAsJsonIn (toJson g).1)).graphAttributes = g.graphAttributes ∧
    (fromJson (docAsJsonIn (toJson g).1)).nodes.length = g.nodes.length ∧
    (fromJson (docAsJsonIn (toJson g).1)).edges.length = g.edges.length ∧
    (fromJson (docAsJsonIn (toJson g).1)).nodes.map (fun e => getF e.fields "id") =
      g.nodes.map (fun e => getF e.fields "id") ∧
    (fromJson (docAsJsonIn (toJson g).1)).edges.map (fun e => getF e.fields "id") =
      g.edges.map (fun e => getF e.fields "id") ∧
    (fromJson (docAsJsonIn (toJson g).1)).nodes.map Element.attributes =
      g.nodes.map Element.attributes ∧
    (fromJson (docAsJsonIn (toJson g).1)).edges.map Element.attributes =
      g.edges.map Element.attributes := by
  have hnodes : (fromJson (docAsJsonIn (toJson g).1)).nodes = g.nodes.map colorCanon := by
    simp only [fromJson, docAsJsonIn, toJson, mapAccuml_reorg_snd, List.map_map]
    apply List.map_congr_left
    intro e hmem
    exact reorganizeElement_roundtrip [] true e (hn e hmem) (Or.inl rfl)
  have hedges : (fromJson (docAsJsonIn (toJson g).1)).edges = g.edges.map colorCanon := by
    simp only [fromJson, docAsJsonIn, toJson, mapAccuml_reorg_snd, List.map_map]
    apply List.map_congr_left
    intro e hmem
    exact reorganizeElement_roundtrip [] false e (he e hmem).1 (Or.inr (he e hmem).2)
  refine ⟨?_, ?_, ?_, ?_, ?_, ?_, ?_, ?_, ?_⟩
  · rw [hnodes, List.map_map]
    exact List.map_congr_left (fun e _ => normColorEl_colorCanon e)
  · rw [hedges, List.map_map]
    exact List.map_congr_left (fun e _ => normColorEl_colorCanon e)
  · rfl
  · rw [hnodes]; simp
  · rw [hedges]; simp
  · rw [hnodes, List.map_map]
    exact List.map_congr_left (fun e _ => getF_colorCanon_ne e (by decide))
  · rw [hedges, List.map_map]
    exact List.map_congr_left (fun e _ => getF_colorCanon_ne e (by decide))
  · rw [hnodes, List.map_map]
    exact List.map_congr_left (fun e _ => colorCanon_attributes e)
  · rw [hedges, List.map_map]
    exact List.map_congr_left (fun e _ => colorCanon_attributes e)

/-- Witness for C1 (amended) at a one-node one-edge graph with a color,
a position, an edge weight and a free-form attribute. -/
theorem claim1_json_roundtrip_witness :
    (fromJson (docAsJsonIn (toJson
        ⟨[⟨[("id", .str "n"), ("color", .color ⟨1, 2, 3⟩), ("x", .num 5)], [("a", .num 7)]⟩],
         [⟨[("id", .str "e"), ("source", .str "n"), ("target", .str "n"), ("weight", .num 2)], []⟩],
         [], [], defaultGraphAttrs⟩).1)).nodes.map normColorEl =
      ([⟨[("id", .str "n"), ("color", .color ⟨1, 2, 3⟩), ("x", .num 5)],
        [("a", .num 7)]⟩] : List Element).map normColorEl :=
  (claim1_json_roundtrip_amended
    ⟨[⟨[("id", .str "n"), ("color", .color ⟨1, 2, 3⟩), ("x", .num 5)], [("a", .num 7)]⟩],
     [⟨[("id", .str "e"), ("source", .str "n"), ("target", .str "n"), ("weight", .num 2)], []⟩],
     [], [], defaultGraphAttrs⟩
    (by decide) (by decide)).1

/-! ## Claim C6 — attribute-type inference -/

theorem findEntry_guess (g : Guess) (k k' : String) (v : JVal) :
    findEntry (guessJSONAttribute g k' v) k =
      if k = k' then
        (match findEntry g k with
          | some e => some { e with counts := incrCount e.counts v.typeOf }
          | none => some ⟨k, k, incrCount [] v.typeOf⟩)
      else findEntry g k := by
  induction g with
  | nil =>
    by_cases h : k = k'
    · subst h
      simp [guessJSONAttribute, findEntry, incrCount]
    · simp [guessJSONAttribute, findEntry, h, Ne.symm h]
  | cons p rest ih =>
    obtain ⟨a, e⟩ := p
    by_cases ha : a = k'
    · subst ha
      by_cases hk : k = a
      · subst hk
        simp [guessJSONAttribute, findEntry]
      · simp [guessJSONAttribute, findEntry, hk, Ne.symm hk]
    · by_cases hk : k = a
      · subst hk
        simp [guessJSONAttribute, findEntry, ha]
      · simp [guessJSONAttribute, findEntry, ha, hk, Ne.symm hk, ih]

theorem findEntry_foldGuess (obs : List (String × JVal)) :
    ∀ (g : Guess) (k : String),
      findEntry (obs.foldl (fun g p => guessJSONAttribute g p.1 p.2) g) k =
        match findEntry g k with
        | some e => some { e with counts := (typesFor k obs).foldl incrCount e.counts }
        | none =>
          if typesFor k obs = [] then none
          else some ⟨k, k, buildCounts (typesFor k obs)⟩ := by
  induction obs with
  | nil =>
    intro g k
    cases h : findEntry g k <;> simp [typesFor, h, buildCounts]
  | cons p obs ih =>
    intro g k
    obtain ⟨k', v⟩ := p
    simp only [List.foldl_cons]
    rw [ih, findEntry_guess]
    by_cases hk : k = k'
    · subst hk
      have htys : typesFor k ((k, v) :: obs) = v.typeOf :: typesFor k obs := by
        simp [typesFor]
      rw [htys]
      cases h : findEntry g k with
      | none =>
        simp only [h, if_true, eq_self_iff_true]
        have : buildCounts (v.typeOf :: typesFor k obs) =
            (typesFor k obs).foldl incrCount (incrCount [] v.typeOf) := by
          simp [buildCounts, List.foldl_cons]
        simp [this]
      | some e =>
        simp [h, List.foldl_cons]
    · have htys : typesFor k ((k', v) :: obs) = typesFor k obs := by
        simp [typesFor, Ne.symm hk]
      simp [hk, htys]

theorem incrCount_cases (l : List (String × Nat)) (t : String) :
    ((∀ p ∈ l, p.1 ≠ t) ∧ incrCount l t = l ++ [(t, 1)]) ∨
    (∃ l1 n l2, l = l1 ++ (t, n) :: l2 ∧ (∀ p ∈ l1, p.1 ≠ t) ∧
      incrCount l t = l1 ++ (t, n + 1) :: l2) := by
  induction l with
  | nil => left; exact ⟨by simp, by simp [incrCount]⟩
  | cons p rest ih =>
    obtain ⟨a, n⟩ := p
    by_cases ha : a = t
    · subst ha
      right
      exact ⟨[], n, rest, by simp, by simp, by simp [incrCount]⟩
    · rcases ih with ⟨h1, h2⟩ | ⟨l1, m, l2, he, h1, h2⟩
      · left
        refine ⟨?_, by simp [incrCount, ha, h2]⟩
        intro p hp
        rcases List.mem_cons.mp hp with h | h
        · rw [h]; exact ha
        · exact h1 p h
      · right
        refine ⟨(a, n) :: l1, m, l2, by simp [he], ?_, by simp [incrCount, ha, h2]⟩
        intro p hp
        rcases List.mem_cons.mp hp with h | h
        · rw [h]; exact ha
        · exact h1 p h

theorem buildCounts_invariant (ts : List String) :
    (∀ p ∈ buildCounts ts, p.2 = ts.count p.1 ∧ p.1 ∈ ts) ∧
    (∀ t ∈ ts, t ∈ (buildCounts ts).map Prod.fst) ∧
    List.Pairwise (fun p q => ts.indexOf p.1 < ts.indexOf q.1) (buildCounts ts) := by
  induction ts using List.reverseRecOn with
  | nil => simp [buildCounts]
  | append_singleton ts t ih =>
    obtain ⟨hcnt, hcomp, hpair⟩ := ih
    have hb : buildCounts (ts ++ [t]) = incrCount (buildCounts ts) t := by
      simp [buildCounts, List.foldl_append]
    have hkeys : ∀ p ∈ buildCounts ts, p.1 ∈ ts := fun p hp => (hcnt p hp).2
    rcases incrCount_cases (buildCounts ts) t with ⟨hno, heq⟩ | ⟨l1, n, l2, hdec, hno, heq⟩
    · -- the key t was never seen: a fresh (t, 1) entry is appended
      have htnot : t ∉ ts := by
        intro hmem
        obtain ⟨p, hp, hp1⟩ := List.mem_map.mp (hcomp t hmem)
        exact hno p hp hp1
      rw [hb, heq]
      refine ⟨?_, ?_, ?_⟩
      · intro p hp
        rcases List.mem_append.mp hp with h | h
        · obtain ⟨hc, hm⟩ := hcnt p h
          have hne : ¬(t = p.1) := fun hh => htnot (hh ▸ hm)
          constructor
          · rw [List.count_append, List.count_singleton']
            simp [hne, hc]
          · exact List.mem_append_left _ hm
        · simp only [List.mem_singleton] at h
          subst h
          constructor
          · rw [List.count_append, List.count_singleton']
            simp [List.count_eq_zero_of_not_mem htnot]
          · simp
      · intro t' ht'
        rcases List.mem_append.mp ht' with h | h
        · obtain ⟨p, hp, hp1⟩ := List.mem_map.mp (hcomp t' h)
          exact List.mem_map.mpr ⟨p, List.mem_append_left _ hp, hp1⟩
        · simp only [List.mem_singleton] at h
          subst h
          exact List.mem_map.mpr ⟨(t', 1), List.mem_append_right _ (by simp), rfl⟩
      · rw [List.pairwise_append]
        refine ⟨?_, by simp, ?_⟩
        · exact hpair.imp_of_mem (fun {p q} hp hq hr => by
            rw [List.indexOf_append_of_mem (hkeys p hp),
              List.indexOf_append_of_mem (hkeys q hq)]
            exact hr)
        · intro p hp q hq
          simp only [List.mem_singleton] at hq
          subst hq
          rw [List.indexOf_append_of_mem (hkeys p hp),
            List.indexOf_append_of_not_mem htnot]
          simp only [List.indexOf_cons_self, Nat.add_zero]
          exact List.indexOf_lt_length.mpr (hkeys p hp)
    · -- the key t already has an entry: its counter is bumped in place
      have htmem : t ∈ ts := by
        have : (t, n) ∈ buildCounts ts := hdec ▸ (by simp)
        exact (hcnt (t, n) this).2
      have hl2ne : ∀ q ∈ l2, q.1 ≠ t := by
        intro q hq
        have hp2 : List.Pairwise (fun p q => ts.indexOf p.1 < ts.indexOf q.1) ((t, n) :: l2) := by
          have hsub : ((t, n) :: l2).Sublist (buildCounts ts) := by
            rw [hdec]; exact List.sublist_append_right _ _
          exact hpair.sublist hsub
        have := (List.pairwise_cons.mp hp2).1 q hq
        intro hh
        rw [hh] at this
        exact lt_irrefl _ this
      have hmemB : ∀ p, p ∈ l1 ∨ p ∈ l2 → p ∈ buildCounts ts := by
        intro p hp
        rw [hdec]
        rcases hp with h | h
        · exact List.mem_append_left _ h
        · exact List.mem_append_right _ (by simp [h])
      have hcount_old : ∀ p, p ∈ l1 ∨ p ∈ l2 → (ts ++ [t]).count p.1 = ts.count p.1 := by
        intro p hp
        have hne : p.1 ≠ t := by
          rcases hp with h | h
          · exact hno p h
          · exact hl2ne p h
        rw [List.count_append, List.count_singleton']
        simp [Ne.symm hne]
      rw [hb, heq]
      have hn : n = ts.count t := by
        have : (t, n) ∈ buildCounts ts := hdec ▸ (by simp)
        exact (hcnt (t, n) this).1
      refine ⟨?_, ?_, ?_⟩
      · intro p hp
        rcases List.mem_append.mp hp with h | h
        · obtain ⟨hc, hm⟩ := hcnt p (hmemB p (Or.inl h))
          exact ⟨by rw [hcount_old p (Or.inl h), hc], List.mem_append_left _ hm⟩
        · rcases List.mem_cons.mp h with h | h
          · subst h
            constructor
            · rw [List.count_append, List.count_singleton']
              simp [hn]
            · exact List.mem_append_left _ htmem
          · obtain ⟨hc, hm⟩ := hcnt p (hmemB p (Or.inr h))
            exact ⟨by rw [hcount_old p (Or.inr h), hc], List.mem_append_left _ hm⟩
      · have hkeq : (l1 ++ (t, n + 1) :: l2).map Prod.fst =
            (buildCounts ts).map Prod.fst := by
          rw [hdec]
          simp
        intro t' ht'
        rw [hkeq]
        rcases List.mem_append.mp ht' with h | h
        · exact hcomp t' h
        · simp only [List.mem_singleton] at h
          subst h
          rw [hdec]
          simp
      · have hKts : ∀ a ∈ (l1 ++ (t, n + 1) :: l2).map Prod.fst, a ∈ ts := by
          intro a ha
          obtain ⟨p, hp, hp1⟩ := List.mem_map.mp ha
          rcases List.mem_append.mp hp with h | h
          · exact hp1 ▸ hkeys p (hmemB p (Or.inl h))
          · rcases List.mem_cons.mp h with h | h
            · rw [← hp1, h]; exact htmem
            · exact hp1 ▸ hkeys p (hmemB p (Or.inr h))
        have hKp : List.Pairwise (fun a b => ts.indexOf a < ts.indexOf b)
            ((buildCounts ts).map Prod.fst) :=
          (@List.pairwise_map _ _ Prod.fst
            (fun a b => ts.indexOf a < ts.indexOf b) _).mpr hpair
        have hkeq : (l1 ++ (t, n + 1) :: l2).map Prod.fst =
            (buildCounts ts).map Prod.fst := by
          rw [hdec]; simp
        have hKp2 : List.Pairwise (fun a b => (ts ++ [t]).indexOf a < (ts ++ [t]).indexOf b)
            ((l1 ++ (t, n + 1) :: l2).map Prod.fst) := by
          rw [hkeq]
          exact hKp.imp_of_mem (fun {a b} ha hb hr => by
            rw [List.indexOf_append_of_mem (hKts a (hkeq ▸ ha)),
              List.indexOf_append_of_mem (hKts b (hkeq ▸ hb))]
            exact hr)
        exact (@List.pairwise_map _ _ Prod.fst
          (fun a b => (ts ++ [t]).indexOf a < (ts ++ [t]).indexOf b) _).mp hKp2

theorem pickBest_spec (l : List (String × Nat)) :
    ∀ a : String × Nat, ∃ r l1 l2, pickBest (some a) l = some r ∧
      a :: l = l1 ++ r :: l2 ∧ (∀ p ∈ l1, p.2 < r.2) ∧ (∀ p ∈ a :: l, p.2 ≤ r.2) := by
  induction l with
  | nil =>
    intro a
    exact ⟨a, [], [], rfl, rfl, by simp, by simp⟩
  | cons p rest ih =>
    intro a
    by_cases hp : p.2 > a.2
    · obtain ⟨r, l1, l2, h1, h2, h3, h4⟩ := ih p
      have hstep : pickBest (some a) (p :: rest) = pickBest (some p) rest := by
        simp [pickBest, hp]
      have hr : p.2 ≤ r.2 := h4 p (by simp)
      refine ⟨r, a :: l1, l2, by rw [hstep]; exact h1,
        by rw [List.cons_append, ← h2], ?_, ?_⟩
      · intro q hq
        rcases List.mem_cons.mp hq with h | h
        · rw [h]; omega
        · exact h3 q h
      · intro q hq
        rcases List.mem_cons.mp hq with h | h
        · rw [h]; omega
        · exact h4 q h
    · obtain ⟨r, l1, l2, h1, h2, h3, h4⟩ := ih a
      have hstep : pickBest (some a) (p :: rest) = pickBest (some a) rest := by
        simp [pickBest, hp]
      have hpa : p.2 ≤ a.2 := by omega
      have haa : a.2 ≤ r.2 := h4 a (by simp)
      cases l1 with
      | nil =>
        have h2s : a = r ∧ rest = l2 := by
          have h2' := h2
          simp only [List.nil_append] at h2'
          injection h2' with hx hy
          exact ⟨hx, hy⟩
        obtain ⟨hra, hl2⟩ := h2s
        refine ⟨r, [], p :: l2, by rw [hstep]; exact h1, by simp [← hra, ← hl2],
          by simp, ?_⟩
        intro q hq
        rcases List.mem_cons.mp hq with h | h
        · rw [h]; exact haa
        rcases List.mem_cons.mp h with h' | h'
        · rw [h']; omega
        · exact h4 q (List.mem_cons_of_mem a h')
      | cons b l1' =>
        have h2' := h2
        rw [List.cons_append] at h2'
        injection h2' with hba hrest
        subst hba
        have har : a.2 < r.2 := h3 a (by simp)
        refine ⟨r, a :: p :: l1', l2, by rw [hstep]; exact h1, ?_, ?_, ?_⟩
        · simp only [List.cons_append]
          rw [← hrest]
        · intro q hq
          rcases List.mem_cons.mp hq with h | h
          · rw [h]; exact har
          rcases List.mem_cons.mp h with h' | h'
          · rw [h']; omega
          · exact h3 q (by simp [h'])
        · intro q hq
          rcases List.mem_cons.mp hq with h | h
          · rw [h]; exact haa
          rcases List.mem_cons.mp h with h' | h'
          · rw [h']; omega
          · exact h4 q (List.mem_cons_of_mem a h')

theorem guessMaps_flatten (maps : List Fields) :
    guessMaps maps = guessAll maps.flatten := by
  rw [guessMaps, guessAll, List.foldl_flatten]

/-- C6: for every sequence of free-form attribute maps and every observed
key, the type the guesser infers for that key is the runtime value type
with the highest occurrence count across all observations of the key, and
on an exact tie the type observed first wins (the reduce starts from an
undefined accumulator and replaces it only on a strictly larger count);
in particular the observations `1`, `2`, `"x"` for key `a` infer `number`. -/
theorem claim6_type_inference (maps : List Fields) (k : String) (e : GuessEntry)
    (h : findEntry (guessMaps maps) k = some e) :
    pickType e.counts ∈ typesFor k maps.flatten ∧
    (∀ t, (typesFor k maps.flatten).count t ≤
      (typesFor k maps.flatten).count (pickType e.counts)) ∧
    (∀ t ∈ typesFor k maps.flatten,
      (typesFor k maps.flatten).count t =
        (typesFor k maps.flatten).count (pickType e.counts) →
      (typesFor k maps.flatten).indexOf (pickType e.counts) ≤
        (typesFor k maps.flatten).indexOf t) ∧
    getAttributesFromGuesser (guessAll [("a", .num 1), ("a", .num 2), ("a", .str "x")]) =
      [⟨.str "a", .str "a", "number"⟩] := by
  rw [guessMaps_flatten, guessAll, findEntry_foldGuess] at h
  simp only [findEntry] at h
  by_cases hnil : typesFor k maps.flatten = []
  · rw [if_pos hnil] at h
    exact absurd h (by simp)
  · rw [if_neg hnil] at h
    injection h with h1
    have hec : e.counts = buildCounts (typesFor k maps.flatten) := by rw [← h1]
    rw [hec]
    obtain ⟨hcnt, hcomp, hpair⟩ := buildCounts_invariant (typesFor k maps.flatten)
    have hBne : buildCounts (typesFor k maps.flatten) ≠ [] := by
      cases htys : typesFor k maps.flatten with
      | nil => exact absurd htys hnil
      | cons t0 ts0 =>
        have ht0 : t0 ∈ typesFor k maps.flatten := by rw [htys]; simp
        have hk0 := hcomp t0 ht0
        rw [htys] at hk0
        intro hB
        rw [hB] at hk0
        simp at hk0
    obtain ⟨p0, B0, hB⟩ : ∃ p0 B0,
        buildCounts (typesFor k maps.flatten) = p0 :: B0 := by
      cases hBx : buildCounts (typesFor k maps.flatten) with
      | nil => exact absurd hBx hBne
      | cons a b => exact ⟨a, b, rfl⟩
    obtain ⟨r, l1, l2, hr1, hr2, hr3, hr4⟩ := pickBest_spec B0 p0
    have hw : pickType (buildCounts (typesFor k maps.flatten)) = r.1 := by
      rw [hB]
      simp [pickType, pickBest, hr1]
    have hBdec : buildCounts (typesFor k maps.flatten) = l1 ++ r :: l2 := by
      rw [hB, hr2]
    have hrmem : r ∈ buildCounts (typesFor k maps.flatten) := by
      rw [hBdec]; simp
    obtain ⟨hrc, hrm⟩ := hcnt r hrmem
    have hcw : (typesFor k maps.flatten).count
        (pickType (buildCounts (typesFor k maps.flatten))) = r.2 := by
      rw [hw]
      exact hrc.symm
    refine ⟨?_, ?_, ?_, rfl⟩
    · rw [hw]; exact hrm
    · intro t
      by_cases ht : t ∈ typesFor k maps.flatten
      · obtain ⟨q, hq, hq1⟩ := List.mem_map.mp (hcomp t ht)
        have hqc := (hcnt q hq).1
        have hqm : q ∈ p0 :: B0 := by rw [← hB]; exact hq
        have hle : q.2 ≤ r.2 := hr4 q hqm
        have e1 : (typesFor k maps.flatten).count t = q.2 := by
          rw [← hq1]
          exact hqc.symm
        omega
      · have hz : (typesFor k maps.flatten).count t = 0 :=
          List.count_eq_zero_of_not_mem ht
        omega
    · intro t ht hcnteq
      obtain ⟨q, hq, hq1⟩ := List.mem_map.mp (hcomp t ht)
      have hqc := (hcnt q hq).1
      have e1 : q.2 = r.2 := by
        have e2 : (typesFor k maps.flatten).count t = q.2 := by
          rw [← hq1]
          exact hqc.symm
        omega
      have hqn : q ∉ l1 := by
        intro hin
        have := hr3 q hin
        omega
      have hq2 : q ∈ r :: l2 := by
        have hmem : q ∈ l1 ++ r :: l2 := hBdec ▸ hq
        rcases List.mem_append.mp hmem with hx | hx
        · exact absurd hx hqn
        · exact hx
      rcases List.mem_cons.mp hq2 with hx | hx
      · rw [hw, ← hq1, hx]
      · have hpl : List.Pairwise (fun p q =>
            (typesFor k maps.flatten).indexOf p.1 <
              (typesFor k maps.flatten).indexOf q.1) (r :: l2) := by
          refine hpair.sublist ?_
          rw [hBdec]
          exact List.sublist_append_right _ _
        have hlt := (List.pairwise_cons.mp hpl).1 q hx
        rw [hw, ← hq1]
        omega

/-- Witness for C6 at the claim's own example: three maps observing key
`a` with values `1`, `2`, `"x"`. -/
theorem claim6_type_inference_witness :
    pickType (GuessEntry.mk "a" "a" [("number", 2), ("string", 1)]).counts ∈
      typesFor "a" ([[("a", .num 1)], [("a", .num 2)], [("a", .str "x")]] :
        List Fields).flatten :=
  (claim6_type_inference [[("a", .num 1)], [("a", .num 2)], [("a", .str "x")]] "a"
    ⟨"a", "a", [("number", 2), ("string", 1)]⟩ rfl).1
